import Mathlib

/-!
Verification of the procedural-railroads repository.

Shallow embedding of the core subsystems (train physics, track lookup,
chunk streaming, route generation) with `f32` arithmetic idealized as
exact real arithmetic, and integer chunk coordinates as `Int`.
Fallible operations (Rust `unwrap`, `assert!`, slice indexing) are
modelled with `Except String`.
-/

/-- Three-component vector, modelling `glam::Vec3` over exact reals. -/
structure Vec3 where
  x : ℝ
  y : ℝ
  z : ℝ

/-- Quaternion, modelling `glam::Quat` over exact reals. -/
structure Quat where
  x : ℝ
  y : ℝ
  z : ℝ
  w : ℝ

def Vec3.zero : Vec3 := ⟨0, 0, 0⟩

def Vec3.add (a b : Vec3) : Vec3 := ⟨a.x + b.x, a.y + b.y, a.z + b.z⟩

def Vec3.sub (a b : Vec3) : Vec3 := ⟨a.x - b.x, a.y - b.y, a.z - b.z⟩

def Vec3.smul (s : ℝ) (a : Vec3) : Vec3 := ⟨s * a.x, s * a.y, s * a.z⟩

/-- Euclidean distance between two `Vec3`, as in `glam::Vec3::distance`. -/
noncomputable def Vec3.distance (a b : Vec3) : ℝ :=
  Real.sqrt ((b.x - a.x) ^ 2 + (b.y - a.y) ^ 2 + (b.z - a.z) ^ 2)

/-- Linear interpolation `a + (b - a) * s`, as in `glam::Vec3::lerp`. -/
def Vec3.lerp (a b : Vec3) (s : ℝ) : Vec3 := a.add ((b.sub a).smul s)

def Quat.dot (a b : Quat) : ℝ := a.x * b.x + a.y * b.y + a.z * b.z + a.w * b.w

def Quat.smul (s : ℝ) (a : Quat) : Quat := ⟨s * a.x, s * a.y, s * a.z, s * a.w⟩

def Quat.addQ (a b : Quat) : Quat := ⟨a.x + b.x, a.y + b.y, a.z + b.z, a.w + b.w⟩

def Quat.subQ (a b : Quat) : Quat := ⟨a.x - b.x, a.y - b.y, a.z - b.z, a.w - b.w⟩

/-- Linear quaternion interpolation with shortest-path sign bias, as in
`glam::Quat::lerp` (the normalization step present in some glam versions is
omitted; no theorem below inspects interpolated rotation values). -/
noncomputable def Quat.lerp (a b : Quat) (s : ℝ) : Quat :=
  let bias : ℝ := if 0 ≤ a.dot b then 1 else -1
  a.addQ (((b.smul bias).subQ a).smul s)

/-- Hamilton product, as in `glam::Quat::mul`. -/
def Quat.mulQ (a b : Quat) : Quat :=
  ⟨a.w * b.x + a.x * b.w + a.y * b.z - a.z * b.y,
   a.w * b.y - a.x * b.z + a.y * b.w + a.z * b.x,
   a.w * b.z + a.x * b.y - a.y * b.x + a.z * b.w,
   a.w * b.w - a.x * b.x - a.y * b.y - a.z * b.z⟩

/-- Rotation about the x axis, as in `glam::Quat::from_rotation_x`. -/
noncomputable def Quat.from_rotation_x (angle : ℝ) : Quat :=
  ⟨Real.sin (angle / 2), 0, 0, Real.cos (angle / 2)⟩

/-! ### Rolling-stock data model (src/rolling_stock/components.rs) -/

/-- `Bogie` component.  Entity handles are modelled as natural numbers. -/
structure Bogie where
  is_leading : Option Bool
  current_track : Option ℕ
  position_on_track : ℝ

/-- `BogiePhysics` component. -/
structure BogiePhysics where
  mass : ℝ
  velocity : ℝ
  horizontal_force : ℝ
  vertical_force : ℝ
  kinetic_force : ℝ
  static_force : ℝ
  current_slope_angle : Option ℝ

/-- `Wagon` component. -/
structure Wagon where
  distance_between_bogies : ℝ

/-- `WagonPhysics` component. -/
structure WagonPhysics where
  mass : ℝ
  velocity : ℝ
  tractive_force : ℝ
  braking_force : ℝ

/-- Constants from src/rolling_stock/bogie_systems.rs. -/
noncomputable def GRAV_ACCELERATION : ℝ := -9.8

noncomputable def T_COEFFICIENT : ℝ := 100

noncomputable def KINETIC_FRICTION_COEFFICIENT : ℝ := 0.001

noncomputable def STATIC_FRICTION_COEFFICIENT : ℝ := 0.01

/-- Modelled from the spec: `PHYSICS_TIMESTEP` is referenced by
src/rolling_stock/bogie_systems.rs but its defining module is not present
under src/; the spec fixes a 60Hz-derived fixed timestep. -/
noncomputable def PHYSICS_TIMESTEP : ℝ := 1 / 60

/-- `utils::get_carried_mass`: wagon lookup for an attached bogie is an
`unwrap`, modelled as `Except`.  `wagons` is the wagon query, an association
from entity id to `WagonPhysics`. -/
noncomputable def get_carried_mass (attached_to : Option ℕ) (physics : BogiePhysics)
    (wagons : List (ℕ × WagonPhysics)) : Except String ℝ :=
  match attached_to with
  | some w =>
      match wagons.lookup w with
      | some wagon => .ok (wagon.mass / 2 + physics.mass)
      | none => .error "wagons_query.get unwrap failed"
  | none => .ok physics.mass

/-- Rust `f32::signum`: `1.0` for nonnegative values (including `0.0`),
`-1.0` for negative ones (reals carry no negative zero). -/
noncomputable def f32_signum (x : ℝ) : ℝ := if x < 0 then -1 else 1

/-- Body of the `apply_bogie_forces` loop for one bogie
(src/rolling_stock/bogie_systems.rs lines 27-51). -/
noncomputable def apply_bogie_forces_one (wagons : List (ℕ × WagonPhysics))
    (attached_to : Option ℕ) (p : BogiePhysics) : Except String BogiePhysics :=
  match p.current_slope_angle with
  | none => .ok p
  | some _ =>
    -- Set the velocity to 0 if it is small.
    let p1 : BogiePhysics := if |p.velocity| ≤ 0.001 then { p with velocity := 0 } else p
    -- Stiction gate: do not start moving if the combined force is within the static force.
    if p1.velocity = 0 ∧ |p1.vertical_force + p1.horizontal_force| ≤ p1.static_force then
      .ok p1
    else
      match get_carried_mass attached_to p1 wagons with
      | .error e => .error e
      | .ok mass =>
        let v1 := p1.velocity +
          (-1 * f32_signum p1.velocity) * (p1.kinetic_force / mass * PHYSICS_TIMESTEP)
        let v2 := v1 + (p1.vertical_force + p1.horizontal_force) / mass * PHYSICS_TIMESTEP
        .ok { p1 with velocity := v2 }

/-- Body of the `apply_bogie_velocities` loop for one bogie
(src/rolling_stock/bogie_systems.rs lines 18-20): advances the track
parameter by the integrated velocity. -/
noncomputable def apply_bogie_velocities_one (p : BogiePhysics) (position_on_track : ℝ) : ℝ :=
  position_on_track + p.velocity * PHYSICS_TIMESTEP / T_COEFFICIENT

/-- Body of the `set_bogie_static_kinetic_forces` loop for one bogie
(src/rolling_stock/bogie_systems.rs lines 58-78). -/
noncomputable def set_bogie_static_kinetic_forces_one
    (wagons : List (ℕ × WagonPhysics)) (attached_to : Option ℕ)
    (p : BogiePhysics) : Except String BogiePhysics :=
  match p.current_slope_angle with
  | none => .ok p
  | some slope_angle =>
    let slope_cos := Real.cos slope_angle
    -- `if let Some(attached_to) = attached_to { wagons_query.get(..).unwrap().braking_force } else { 0. }`
    let braking : Except String ℝ :=
      match attached_to with
      | some w =>
          match wagons.lookup w with
          | some wagon => .ok wagon.braking_force
          | none => .error "wagons_query.get unwrap failed"
      | none => .ok 0
    match braking with
    | .error e => .error e
    | .ok wagon_braking_force =>
      match get_carried_mass attached_to p wagons with
      | .error e => .error e
      | .ok mass =>
        let static_friction := STATIC_FRICTION_COEFFICIENT * mass * GRAV_ACCELERATION * slope_cos
        let kinetic_friction := KINETIC_FRICTION_COEFFICIENT * mass * GRAV_ACCELERATION * slope_cos
        .ok { p with static_force := wagon_braking_force / 2 + |static_friction|,
                     kinetic_force := wagon_braking_force / 2 + |kinetic_friction| }

/-! ### Claim C4: stiction gate -/

/-- C4: for a bogie with a known slope angle, a speed within `0.001` of zero is
snapped to exactly zero, and when the combined vertical+horizontal force does
not exceed the static-force threshold, `apply_bogie_forces` leaves the
(snapped) velocity at exactly zero, so the following `apply_bogie_velocities`
leaves the track parameter unchanged. -/
theorem stiction_gate_keeps_bogie_stationary
    (wagons : List (ℕ × WagonPhysics)) (att : Option ℕ) (p : BogiePhysics)
    (a t : ℝ)
    (hslope : p.current_slope_angle = some a)
    (hv : |p.velocity| ≤ 0.001)
    (hf : |p.vertical_force + p.horizontal_force| ≤ p.static_force) :
    apply_bogie_forces_one wagons att p = .ok { p with velocity := 0 } ∧
    apply_bogie_velocities_one { p with velocity := 0 } t = t := by
  constructor
  · unfold apply_bogie_forces_one
    rw [hslope]
    simp only [if_pos hv]
    rw [if_pos]
    exact ⟨by norm_num, hf⟩
  · unfold apply_bogie_velocities_one
    simp

/-- Witness for C4 at a concrete bogie state. -/
theorem stiction_gate_keeps_bogie_stationary_witness :
    apply_bogie_forces_one [] none (BogiePhysics.mk 4700 0.0005 3 4 0 100 (some 0)) =
      .ok { BogiePhysics.mk 4700 0.0005 3 4 0 100 (some 0) with velocity := 0 } ∧
    apply_bogie_velocities_one
      { BogiePhysics.mk 4700 0.0005 3 4 0 100 (some 0) with velocity := 0 } 2 = 2 :=
  stiction_gate_keeps_bogie_stationary [] none
    (BogiePhysics.mk 4700 0.0005 3 4 0 100 (some 0)) 0 2 rfl
    (by rw [abs_of_nonneg (by norm_num)]; norm_num)
    (by rw [abs_of_nonneg (by norm_num)]; norm_num)

/-! ### Claim C6: static/kinetic force formulas -/

/-- Friction magnitude rewriting: the absolute value the code takes of
`coefficient * mass * GRAV_ACCELERATION * cos` equals
`coefficient * mass * |GRAV_ACCELERATION| * cos` for nonnegative
coefficient, mass and cosine. -/
theorem abs_fric (k m c : ℝ) (hk : 0 ≤ k) (hm : 0 ≤ m) (hc : 0 ≤ c) :
    |k * m * GRAV_ACCELERATION * c| = k * m * |GRAV_ACCELERATION| * c := by
  unfold GRAV_ACCELERATION
  rw [show k * m * (-9.8 : ℝ) * c = -(k * m * (9.8 : ℝ) * c) by ring, abs_neg,
    abs_of_nonneg (by positivity), abs_of_nonpos (by norm_num)]
  ring

/-- C6: after the force-setting phase, the static force equals half the
wagon's braking force plus `static_coefficient * carried_mass * |gravity| *
cos(slope)`, and the kinetic force likewise with the kinetic coefficient,
where `carried_mass` is the bogie mass plus half the attached wagon's mass
(bogie mass alone, and zero braking contribution, when unattached).  The
slope angle produced by the track query is an `asin`, hence lies in
`[-pi/2, pi/2]`, which the hypotheses record together with nonnegative
carried mass. -/
theorem static_kinetic_forces_formula
    (wagons : List (ℕ × WagonPhysics)) (att : Option ℕ) (p : BogiePhysics)
    (a : ℝ) (wopt : Option WagonPhysics)
    (hslope : p.current_slope_angle = some a)
    (hw : wopt = att.bind (fun i => wagons.lookup i))
    (hsome : att.isSome → wopt.isSome)
    (hmass : 0 ≤ p.mass + (wopt.map (fun w => w.mass / 2)).getD 0)
    (ha1 : -(Real.pi / 2) ≤ a) (ha2 : a ≤ Real.pi / 2) :
    set_bogie_static_kinetic_forces_one wagons att p =
      .ok { p with
        static_force := (wopt.map (fun w => w.braking_force)).getD 0 / 2 +
          STATIC_FRICTION_COEFFICIENT *
            (p.mass + (wopt.map (fun w => w.mass / 2)).getD 0) *
            |GRAV_ACCELERATION| * Real.cos a,
        kinetic_force := (wopt.map (fun w => w.braking_force)).getD 0 / 2 +
          KINETIC_FRICTION_COEFFICIENT *
            (p.mass + (wopt.map (fun w => w.mass / 2)).getD 0) *
            |GRAV_ACCELERATION| * Real.cos a } := by
  have hcos : 0 ≤ Real.cos a := Real.cos_nonneg_of_mem_Icc ⟨ha1, ha2⟩
  have hks : (0 : ℝ) ≤ STATIC_FRICTION_COEFFICIENT := by
    unfold STATIC_FRICTION_COEFFICIENT; norm_num
  have hkk : (0 : ℝ) ≤ KINETIC_FRICTION_COEFFICIENT := by
    unfold KINETIC_FRICTION_COEFFICIENT; norm_num
  cases att with
  | none =>
    have hw0 : wopt = none := by simpa using hw
    subst hw0
    simp only [Option.map_none', Option.getD_none, add_zero] at hmass ⊢
    simp only [set_bogie_static_kinetic_forces_one, hslope, get_carried_mass]
    rw [abs_fric _ _ _ hks hmass hcos, abs_fric _ _ _ hkk hmass hcos]
  | some i =>
    cases hlk : wagons.lookup i with
    | none =>
      have hw0 : wopt = none := by simpa [hlk] using hw
      exact absurd (hsome rfl) (by simp [hw0])
    | some wag =>
      have hw0 : wopt = some wag := by simpa [hlk] using hw
      subst hw0
      simp only [Option.map_some', Option.getD_some] at hmass ⊢
      have hm2 : 0 ≤ wag.mass / 2 + p.mass := by linarith
      simp only [set_bogie_static_kinetic_forces_one, hslope, get_carried_mass, hlk]
      rw [abs_fric _ _ _ hks hm2 hcos, abs_fric _ _ _ hkk hm2 hcos]
      simp only [Except.ok.injEq, BogiePhysics.mk.injEq]
      refine ⟨?_, ?_, ?_, ?_, by ring, by ring, ?_⟩ <;> trivial

/-- Witness for C6 with a concrete attached bogie at slope angle 0. -/
theorem static_kinetic_forces_formula_witness :
    set_bogie_static_kinetic_forces_one [(0, WagonPhysics.mk 30000 0 10000 600)]
        (some 0) (BogiePhysics.mk 4700 0 0 0 0 0 (some 0)) =
      .ok { BogiePhysics.mk 4700 0 0 0 0 0 (some 0) with
        static_force := (600 : ℝ) / 2 +
          STATIC_FRICTION_COEFFICIENT * ((4700 : ℝ) + 30000 / 2) *
            |GRAV_ACCELERATION| * Real.cos 0,
        kinetic_force := (600 : ℝ) / 2 +
          KINETIC_FRICTION_COEFFICIENT * ((4700 : ℝ) + 30000 / 2) *
            |GRAV_ACCELERATION| * Real.cos 0 } := by
  have h := static_kinetic_forces_formula [(0, WagonPhysics.mk 30000 0 10000 600)]
    (some 0) (BogiePhysics.mk 4700 0 0 0 0 0 (some 0)) 0
    (some (WagonPhysics.mk 30000 0 10000 600)) rfl (by simp [List.lookup])
    (by simp) (by norm_num) (by linarith [Real.pi_nonneg]) (by linarith [Real.pi_nonneg])
  simpa using h

/-! ### Claim C9: bogie-pair velocity synchronization -/

/-- `wagon_systems::sync_bogie_velocities`: every bogie matched by the query
(those with an `AttachedToWagon` component, modelled as `some wagon_id`)
receives the average velocity of its wagon's bogie group; bogies without an
attachment are not matched by the query and keep their state.  The HashMap
grouping in the source partitions the query results by wagon id; the effect
per bogie is expressed functionally. -/
noncomputable def sync_bogie_velocities
    (bogies : List (Option ℕ × BogiePhysics)) : List (Option ℕ × BogiePhysics) :=
  bogies.map (fun b =>
    match b.1 with
    | none => b
    | some w =>
        let grp := bogies.filter (fun c => c.1 == some w)
        let total_velocity := (grp.map (fun c => c.2.velocity)).sum
        let avg_bogie_velocity := total_velocity / (grp.length : ℝ)
        (b.1, { b.2 with velocity := avg_bogie_velocity }))

/-- C9: when a wagon has exactly two attached bogies, the synchronization
step assigns both of them the arithmetic mean of their two previous
velocities, and bogies attached to no wagon are unaffected. -/
theorem sync_bogie_velocities_pair_mean
    (bogies : List (Option ℕ × BogiePhysics)) (w : ℕ)
    (b1 b2 : Option ℕ × BogiePhysics)
    (hgrp : bogies.filter (fun c => c.1 == some w) = [b1, b2]) :
    (∀ i b, bogies.get? i = some b → b.1 = some w →
      (sync_bogie_velocities bogies).get? i =
        some (b.1, { b.2 with velocity := (b1.2.velocity + b2.2.velocity) / 2 })) ∧
    (∀ i b, bogies.get? i = some b → b.1 = none →
      (sync_bogie_velocities bogies).get? i = some b) := by
  constructor
  · intro i b hi hb
    unfold sync_bogie_velocities
    rw [List.get?_map, hi]
    simp only [Option.map_some']
    rw [hb]
    simp only [hgrp]
    norm_num
  · intro i b hi hb
    unfold sync_bogie_velocities
    rw [List.get?_map, hi]
    simp only [Option.map_some']
    rw [hb]

/-- Witness for C9 on a concrete three-bogie world (two attached, one free). -/
theorem sync_bogie_velocities_pair_mean_witness :
    ((sync_bogie_velocities
        [(some 0, BogiePhysics.mk 4700 2 0 0 0 0 none),
         (some 0, BogiePhysics.mk 4700 4 0 0 0 0 none),
         (none, BogiePhysics.mk 4700 7 0 0 0 0 none)]).get? 0 =
      some (some 0, { BogiePhysics.mk 4700 2 0 0 0 0 none with
        velocity := ((2 : ℝ) + 4) / 2 })) ∧
    ((sync_bogie_velocities
        [(some 0, BogiePhysics.mk 4700 2 0 0 0 0 none),
         (some 0, BogiePhysics.mk 4700 4 0 0 0 0 none),
         (none, BogiePhysics.mk 4700 7 0 0 0 0 none)]).get? 2 =
      some (none, BogiePhysics.mk 4700 7 0 0 0 0 none)) := by
  have h := sync_bogie_velocities_pair_mean
    [(some 0, BogiePhysics.mk 4700 2 0 0 0 0 none),
     (some 0, BogiePhysics.mk 4700 4 0 0 0 0 none),
     (none, BogiePhysics.mk 4700 7 0 0 0 0 none)] 0
    (some 0, BogiePhysics.mk 4700 2 0 0 0 0 none)
    (some 0, BogiePhysics.mk 4700 4 0 0 0 0 none)
    (by simp [List.filter])
  exact ⟨h.1 0 _ rfl rfl, h.2 2 _ rfl rfl⟩

/-! ### Claim C8: rigid-rod constraint on a wagon's bogie pair -/

/-- World transform of an entity: translation plus rotation
(scale is never touched by the embedded systems). -/
structure Transform where
  translation : Vec3
  rotation : Quat

/-- Scan of the per-wagon bogie vector in
`wagon_systems::constrain_attached_bogies` (lines 155-163): classify each
bogie by `is_leading.unwrap()` (a panic when the flag is `None`), the last
match of each kind winning.  Entries carry their index in the vector. -/
def find_lead_trail :
    List (ℕ × (Bogie × Transform)) →
    Option (ℕ × (Bogie × Transform)) × Option (ℕ × (Bogie × Transform)) →
    Except String (Option (ℕ × (Bogie × Transform)) × Option (ℕ × (Bogie × Transform)))
  | [], acc => .ok acc
  | (i, b) :: rest, (ld, tl) =>
    match b.1.is_leading with
    | none => .error "is_leading unwrap failed"
    | some true => find_lead_trail rest (some (i, b), tl)
    | some false => find_lead_trail rest (ld, some (i, b))

/-- Per-wagon body of `wagon_systems::constrain_attached_bogies`
(lines 151-176): nudge the trailing bogie's track parameter toward the
configured bogie distance. -/
noncomputable def constrain_attached_bogies_wagon (wagon : Wagon)
    (bogies : List (Bogie × Transform)) : Except String (List (Bogie × Transform)) :=
  match find_lead_trail bogies.enum (none, none) with
  | .error e => .error e
  | .ok (none, _) => .error "leading_bogie unwrap failed"
  | .ok (_, none) => .error "trailing_bogie unwrap failed"
  | .ok (some (_, leading), some (ti, trailing)) =>
    let current_distance := Vec3.distance leading.2.translation trailing.2.translation
    let new_trailing :=
      if current_distance < wagon.distance_between_bogies then
        { trailing.1 with position_on_track := trailing.1.position_on_track -
            0.001 * |current_distance - wagon.distance_between_bogies| }
      else
        { trailing.1 with position_on_track := trailing.1.position_on_track +
            0.001 * |current_distance - wagon.distance_between_bogies| }
    .ok (bogies.set ti (new_trailing, trailing.2))

/-- C8: on a wagon's leading/trailing bogie pair, the constraint changes only
the trailing bogie's track parameter; the correction has magnitude exactly
`0.001 * |current_distance - distance_between_bogies|`, decreasing `t` when
the bogies are closer than the target distance and increasing it when they
are farther apart. -/
theorem constrain_attached_bogies_only_trailing
    (wagon : Wagon) (l tr : Bogie × Transform) (d delta : ℝ)
    (hl : l.1.is_leading = some true) (ht : tr.1.is_leading = some false)
    (hd : d = Vec3.distance l.2.translation tr.2.translation)
    (hdelta : delta = if d < wagon.distance_between_bogies
      then -(0.001 * |d - wagon.distance_between_bogies|)
      else 0.001 * |d - wagon.distance_between_bogies|) :
    constrain_attached_bogies_wagon wagon [l, tr] =
      .ok [l, ({ tr.1 with position_on_track := tr.1.position_on_track + delta }, tr.2)] ∧
    |delta| = 0.001 * |d - wagon.distance_between_bogies| ∧
    (d < wagon.distance_between_bogies →
      tr.1.position_on_track + delta < tr.1.position_on_track) ∧
    (wagon.distance_between_bogies < d →
      tr.1.position_on_track < tr.1.position_on_track + delta) := by
  have habs : (0 : ℝ) ≤ 0.001 * |d - wagon.distance_between_bogies| := by positivity
  refine ⟨?_, ?_, ?_, ?_⟩
  · unfold constrain_attached_bogies_wagon
    simp only [List.enum, List.enumFrom, find_lead_trail, hl, ht]
    rw [← hd]
    by_cases hlt : d < wagon.distance_between_bogies
    · rw [if_pos hlt, hdelta, if_pos hlt]
      simp [List.set, sub_eq_add_neg]
    · rw [if_neg hlt, hdelta, if_neg hlt]
      simp [List.set]
  · rw [hdelta]
    by_cases hlt : d < wagon.distance_between_bogies
    · rw [if_pos hlt, abs_neg, abs_of_nonneg habs]
    · rw [if_neg hlt, abs_of_nonneg habs]
  · intro hlt
    have hne : d - wagon.distance_between_bogies ≠ 0 := by
      intro h0
      exact absurd (by linarith : d = wagon.distance_between_bogies) (ne_of_lt hlt)
    have : 0 < 0.001 * |d - wagon.distance_between_bogies| := by positivity
    rw [hdelta, if_pos hlt]
    linarith
  · intro hgt
    have hne : d - wagon.distance_between_bogies ≠ 0 := by
      intro h0
      exact absurd (by linarith : d = wagon.distance_between_bogies)
        (ne_of_gt hgt)
    have : 0 < 0.001 * |d - wagon.distance_between_bogies| := by positivity
    rw [hdelta, if_neg (by linarith)]
    linarith

/-- Witness for C8: a pair at distance 5 with target distance 12. -/
theorem constrain_attached_bogies_only_trailing_witness :
    constrain_attached_bogies_wagon (Wagon.mk 12)
      [(Bogie.mk (some true) none 5, Transform.mk (Vec3.mk 0 0 0) (Quat.mk 0 0 0 1)),
       (Bogie.mk (some false) none 4.9, Transform.mk (Vec3.mk 3 4 0) (Quat.mk 0 0 0 1))] =
      .ok [(Bogie.mk (some true) none 5, Transform.mk (Vec3.mk 0 0 0) (Quat.mk 0 0 0 1)),
        ({ Bogie.mk (some false) none 4.9 with
            position_on_track := (4.9 : ℝ) + -(0.007 : ℝ) },
         Transform.mk (Vec3.mk 3 4 0) (Quat.mk 0 0 0 1))] ∧
    |(-(0.007 : ℝ))| = 0.001 * |(5 : ℝ) - 12| ∧
    ((5 : ℝ) < 12 → (4.9 : ℝ) + -(0.007 : ℝ) < 4.9) ∧
    ((12 : ℝ) < 5 → (4.9 : ℝ) < 4.9 + -(0.007 : ℝ)) := by
  have habs7 : |(5 : ℝ) - 12| = 7 := by
    rw [show (5 : ℝ) - 12 = -7 by norm_num, abs_neg, abs_of_nonneg (by norm_num)]
  have hdist : (5 : ℝ) =
      Vec3.distance (Vec3.mk 0 0 0) (Vec3.mk 3 4 0) := by
    unfold Vec3.distance
    rw [show ((3 : ℝ) - 0) ^ 2 + ((4 : ℝ) - 0) ^ 2 + ((0 : ℝ) - 0) ^ 2 = 5 ^ 2 by norm_num]
    rw [Real.sqrt_sq (by norm_num)]
  exact constrain_attached_bogies_only_trailing (Wagon.mk 12)
    (Bogie.mk (some true) none 5, Transform.mk (Vec3.mk 0 0 0) (Quat.mk 0 0 0 1))
    (Bogie.mk (some false) none 4.9, Transform.mk (Vec3.mk 3 4 0) (Quat.mk 0 0 0 1))
    5 (-(0.007 : ℝ)) rfl rfl hdist
    (by rw [if_pos (by norm_num), habs7]; norm_num)

/-! ### Track lookup (src/world/train_tracks.rs) -/

/-- Sampled point on a bezier path (`bevy_extrude_mesh::bezier::OrientedPoint`). -/
structure OrientedPoint where
  position : Vec3
  rotation : Quat
  t : ℝ

/-- A sampled track segment. -/
structure TrackSegment where
  id : ℕ
  points : List OrientedPoint
  world_translation : Vec3

/-- Loop of `TrackSegment::get_closest_point_at_t` over the indexed sample
points, carrying `(closest_index, closest_point, smallest_diff)` with the
initial smallest difference of `1.`. -/
noncomputable def get_closest_point_go (t : ℝ) :
    List (ℕ × OrientedPoint) → ℕ × Option OrientedPoint × ℝ →
    ℕ × Option OrientedPoint × ℝ
  | [], acc => acc
  | (i, p) :: rest, (ci, cp, sd) =>
    let diff := |t - p.t|
    if diff < sd then get_closest_point_go t rest (i, some p, diff)
    else get_closest_point_go t rest (ci, cp, sd)

/-- `TrackSegment::get_closest_point_at_t`; the final
`closest_point.unwrap()` is a panic when no sample is within distance 1. -/
noncomputable def TrackSegment.get_closest_point_at_t (seg : TrackSegment)
    (t : ℝ) : Except String (ℕ × OrientedPoint) :=
  match get_closest_point_go t seg.points.enum (0, none, 1) with
  | (_, none, _) => .error "closest_point unwrap failed"
  | (i, some p, _) => .ok (i, p)

/-- `TrackSegment::get_interpolated_position_at_t`: indexing
`points[closest_index - 1]` underflows `usize` when the closest index is 0,
and `points[closest_index + 1]` can run past the end; both are panics. -/
noncomputable def TrackSegment.get_interpolated_position_at_t
    (seg : TrackSegment) (t : ℝ) : Except String (Vec3 × Quat) :=
  match seg.get_closest_point_at_t t with
  | .error e => .error e
  | .ok (closest_index, closest_point) =>
    if closest_point.t > t then
      match (if closest_index = 0 then none else seg.points.get? (closest_index - 1)) with
      | none => .error "points index out of bounds"
      | some prev =>
        let lerp_factor := t * ((seg.points.length : ℝ) - 1) - ((closest_index : ℝ) - 1)
        .ok (Vec3.lerp prev.position closest_point.position lerp_factor,
             Quat.lerp prev.rotation closest_point.rotation lerp_factor)
    else
      match seg.points.get? (closest_index + 1) with
      | none => .error "points index out of bounds"
      | some next =>
        let lerp_factor := t * ((seg.points.length : ℝ) - 1) - (closest_index : ℝ)
        .ok (Vec3.lerp closest_point.position next.position lerp_factor,
             Quat.lerp closest_point.rotation next.rotation lerp_factor)

/-- `TrackSegment::get_slope_angle_at_t`. -/
noncomputable def TrackSegment.get_slope_angle_at_t (seg : TrackSegment)
    (t : ℝ) : Except String ℝ :=
  match seg.get_closest_point_at_t t with
  | .error e => .error e
  | .ok (closest_index, closest_point) =>
    if closest_point.t > t then
      match (if closest_index = 0 then none else seg.points.get? (closest_index - 1)) with
      | none => .error "points index out of bounds"
      | some prev =>
        let sine := (closest_point.position.y - prev.position.y) /
          Vec3.distance prev.position closest_point.position
        .ok (Real.arcsin sine)
    else
      match seg.points.get? (closest_index + 1) with
      | none => .error "points index out of bounds"
      | some next =>
        let sine := (next.position.y - closest_point.position.y) /
          Vec3.distance closest_point.position next.position
        .ok (Real.arcsin sine)

/-- The `Track` component: registered segments keyed by segment id
(a `HashMap<u32, TrackSegment>`, modelled as an association list). -/
structure Track where
  segments : List (ℕ × TrackSegment)

/-- `Track::get_segment_at_t`: the source asserts `t >= 0.` (a panic for
negative parameters) and then looks up `t.floor() as u32` (for the
in-range values reached here the cast is `Int.toNat` of the floor). -/
noncomputable def Track.get_segment_at_t (track : Track) (t : ℝ) :
    Except String (Option TrackSegment) :=
  if t < 0 then .error "assert failed: t was not a positive number"
  else .ok (track.segments.lookup (⌊t⌋).toNat)

/-- `Track::get_interpolated_position_at_t`. -/
noncomputable def Track.get_interpolated_position_at_t (track : Track)
    (t : ℝ) : Except String (Option (Vec3 × Quat)) :=
  match track.get_segment_at_t t with
  | .error e => .error e
  | .ok none => .ok none
  | .ok (some segment) =>
    let lower_bound := (⌊t⌋).toNat
    match segment.get_interpolated_position_at_t (t - (lower_bound : ℝ)) with
    | .error e => .error e
    | .ok (position, rotation) =>
        .ok (some (position.add segment.world_translation, rotation))

/-- `Track::get_slope_angle_at_t`. -/
noncomputable def Track.get_slope_angle_at_t (track : Track) (t : ℝ) :
    Except String (Option ℝ) :=
  match track.get_segment_at_t t with
  | .error e => .error e
  | .ok none => .ok none
  | .ok (some segment) =>
    let lower_bound := (⌊t⌋).toNat
    match segment.get_slope_angle_at_t (t - (lower_bound : ℝ)) with
    | .error e => .error e
    | .ok angle => .ok (some angle)

/-- A bogie entity as seen by `update_bogie_transforms`: its transform,
physics and bogie components. -/
structure BogieEnt where
  transform : Transform
  physics : BogiePhysics
  bogie : Bogie

/-- `bogie_systems::update_bogie_transforms` (lines 140-154).  The caller in
the source passes a height function the `Track` methods of
src/world/train_tracks.rs do not take; it is dropped here.  Note the angle
check is a `return`, not a `continue`: a bogie with no slope angle aborts
the whole pass, leaving every later bogie untouched as well. -/
noncomputable def update_bogie_transforms (track : Track) :
    List BogieEnt → Except String (List BogieEnt)
  | [] => .ok []
  | b :: rest =>
    match track.get_interpolated_position_at_t b.bogie.position_on_track with
    | .error e => .error e
    | .ok point_option =>
      match b.physics.current_slope_angle with
      | none => .ok (b :: rest)
      | some angle =>
        let b1 := match point_option with
          | some (position, rotation) =>
              { b with transform :=
                  (Transform.mk position (rotation.mulQ (Quat.from_rotation_x angle))) }
          | none => b
        match update_bogie_transforms track rest with
        | .error e => .error e
        | .ok rest1 => .ok (b1 :: rest1)

/-! ### Claim C1: missing-segment lookups -/

/-- C1 counterexample: at `t = -1` — where no segment is registered either —
both track queries hit the `assert!(t >= 0.)` and panic instead of
returning "no data". -/
theorem track_lookup_negative_t_panics :
    Track.get_interpolated_position_at_t (Track.mk []) (-1) =
      .error "assert failed: t was not a positive number" ∧
    Track.get_slope_angle_at_t (Track.mk []) (-1) =
      .error "assert failed: t was not a positive number" ∧
    Track.get_interpolated_position_at_t (Track.mk []) (-1) ≠ .ok none ∧
    Track.get_slope_angle_at_t (Track.mk []) (-1) ≠ .ok none := by
  have hseg : Track.get_segment_at_t (Track.mk []) (-1) =
      .error "assert failed: t was not a positive number" := by
    unfold Track.get_segment_at_t
    rw [if_pos (by norm_num)]
  refine ⟨?_, ?_, ?_, ?_⟩ <;>
    simp [Track.get_interpolated_position_at_t, Track.get_slope_angle_at_t, hseg]

/-- C1 (amended to nonnegative parameters): for `0 ≤ t` with no segment
registered at index `⌊t⌋`, both queries return "no data" (`.ok none`), and
whenever the transform pass completes, a bogie sitting at such a `t` keeps
its entire state — its transform is not touched. -/
theorem track_missing_segment_returns_none
    (track : Track) (t : ℝ) (h0 : 0 ≤ t)
    (hmiss : track.segments.lookup (⌊t⌋).toNat = none) :
    Track.get_interpolated_position_at_t track t = .ok none ∧
    Track.get_slope_angle_at_t track t = .ok none ∧
    (∀ bogies result, update_bogie_transforms track bogies = .ok result →
      ∀ i b, bogies.get? i = some b → b.bogie.position_on_track = t →
        result.get? i = some b) := by
  have hseg : Track.get_segment_at_t track t = .ok none := by
    unfold Track.get_segment_at_t
    rw [if_neg (by linarith), hmiss]
  have hpos : Track.get_interpolated_position_at_t track t = .ok none := by
    unfold Track.get_interpolated_position_at_t
    rw [hseg]
  have hslope : Track.get_slope_angle_at_t track t = .ok none := by
    unfold Track.get_slope_angle_at_t
    rw [hseg]
  refine ⟨hpos, hslope, ?_⟩
  intro bogies
  induction bogies with
  | nil =>
    intro result hupd i b hi
    simp at hi
  | cons hd rest ih =>
    intro result hupd i b hi hb
    rw [update_bogie_transforms] at hupd
    cases hq : track.get_interpolated_position_at_t hd.bogie.position_on_track with
    | error e => rw [hq] at hupd; exact absurd hupd (by simp)
    | ok pt =>
      rw [hq] at hupd
      cases hang : hd.physics.current_slope_angle with
      | none =>
        rw [hang] at hupd
        simp only [Except.ok.injEq] at hupd
        rw [← hupd]
        exact hi
      | some angle =>
        rw [hang] at hupd
        cases hrest : update_bogie_transforms track rest with
        | error e => rw [hrest] at hupd; exact absurd hupd (by simp)
        | ok rest1 =>
          rw [hrest] at hupd
          simp only [Except.ok.injEq] at hupd
          cases i with
          | zero =>
            simp only [List.get?_cons_zero, Option.some.injEq] at hi
            subst hi
            rw [hb] at hq
            rw [hpos] at hq
            have hptnone : pt = none := by
              simpa using hq.symm
            subst hptnone
            rw [← hupd]
            rfl
          | succ j =>
            simp only [List.get?_cons_succ] at hi
            rw [← hupd]
            simpa using ih rest1 hrest j b hi hb

/-- Witness for the amended C1 on a concrete empty track at `t = 2.3`. -/
theorem track_missing_segment_returns_none_witness :
    Track.get_interpolated_position_at_t (Track.mk []) 2.3 = .ok none ∧
    Track.get_slope_angle_at_t (Track.mk []) 2.3 = .ok none :=
  ⟨(track_missing_segment_returns_none (Track.mk []) 2.3 (by norm_num) rfl).1,
   (track_missing_segment_returns_none (Track.mk []) 2.3 (by norm_num) rfl).2.1⟩

/-! ### Claim C10: a missing slope angle aborts the whole transform pass -/

/-- A concrete two-sample track segment used to exhibit the early `return`
in `update_bogie_transforms`. -/
noncomputable def segC10 : TrackSegment :=
  TrackSegment.mk 1
    [OrientedPoint.mk (Vec3.mk 0 0 0) (Quat.mk 0 0 0 1) 0,
     OrientedPoint.mk (Vec3.mk 1 0 0) (Quat.mk 0 0 0 1) 1]
    (Vec3.mk 0 0 0)

/-- A track with `segC10` registered at index 1. -/
noncomputable def trackC10 : Track := Track.mk [(1, segC10)]

/-- First bogie: no slope angle, parameter 1.5. -/
noncomputable def bogieC10a : BogieEnt :=
  BogieEnt.mk (Transform.mk (Vec3.mk 7 7 7) (Quat.mk 0 0 0 1))
    (BogiePhysics.mk 4700 0 0 0 0 0 none)
    (Bogie.mk (some true) none 1.5)

/-- Second bogie: slope angle known and track data available, parameter 1.5,
with a stale transform at `(9, 9, 9)`. -/
noncomputable def bogieC10b : BogieEnt :=
  BogieEnt.mk (Transform.mk (Vec3.mk 9 9 9) (Quat.mk 0 0 0 1))
    (BogiePhysics.mk 4700 0 0 0 0 0 (some 0))
    (Bogie.mk (some false) none 1.5)

/-- The closest-sample scan on `segC10` at local parameter `0.5` picks the
first sample. -/
theorem segC10_closest_at_half :
    segC10.get_closest_point_at_t 0.5 =
      .ok (0, OrientedPoint.mk (Vec3.mk 0 0 0) (Quat.mk 0 0 0 1) 0) := by
  unfold TrackSegment.get_closest_point_at_t segC10
  simp only [List.enum, List.enumFrom, get_closest_point_go]
  rw [if_pos (by rw [show (0.5 : ℝ) - 0 = 0.5 by norm_num,
    abs_of_nonneg (by norm_num)]; norm_num)]
  rw [if_neg (by rw [show (0.5 : ℝ) - 1 = -0.5 by norm_num, abs_neg,
    abs_of_nonneg (by norm_num), abs_of_nonneg (by norm_num)]; norm_num)]

/-- Interpolation on `segC10` at local parameter `0.5` lands midway between
the two samples. -/
theorem segC10_interp_at_half :
    segC10.get_interpolated_position_at_t 0.5 =
      .ok (Vec3.mk 0.5 0 0, Quat.mk 0 0 0 1) := by
  unfold TrackSegment.get_interpolated_position_at_t
  rw [segC10_closest_at_half]
  simp only []
  rw [if_neg (by norm_num)]
  simp only [segC10, List.get?]
  unfold Vec3.lerp Quat.lerp Vec3.add Vec3.sub Vec3.smul Quat.dot Quat.addQ
    Quat.subQ Quat.smul
  rw [if_pos (by norm_num)]
  simp only [Except.ok.injEq, Prod.mk.injEq, Vec3.mk.injEq, Quat.mk.injEq,
    List.length]
  norm_num

/-- The track position query at `t = 1.5` on `trackC10` succeeds with data. -/
theorem trackC10_query_at_t :
    Track.get_interpolated_position_at_t trackC10 1.5 =
      .ok (some (Vec3.mk 0.5 0 0, Quat.mk 0 0 0 1)) := by
  have hfloor : (⌊(1.5 : ℝ)⌋).toNat = 1 := by norm_num
  have hseg : Track.get_segment_at_t trackC10 1.5 = .ok (some segC10) := by
    unfold Track.get_segment_at_t
    rw [if_neg (by norm_num), hfloor]
    rfl
  unfold Track.get_interpolated_position_at_t
  rw [hseg, hfloor]
  simp only []
  rw [show (1.5 : ℝ) - ((1 : ℕ) : ℝ) = 0.5 by norm_num, segC10_interp_at_half]
  simp only [segC10, Vec3.add]
  norm_num

/-- C10: the transform pass aborts on the first bogie's missing slope angle
(`return` instead of `continue`): the second bogie keeps its stale transform
even though its own slope angle is known and the track query at its
parameter returns data. -/
theorem update_bogie_transforms_abort_skips_later_bogies :
    update_bogie_transforms trackC10 [bogieC10a, bogieC10b] =
      .ok [bogieC10a, bogieC10b] ∧
    Track.get_interpolated_position_at_t trackC10
        bogieC10b.bogie.position_on_track =
      .ok (some (Vec3.mk 0.5 0 0, Quat.mk 0 0 0 1)) ∧
    bogieC10b.physics.current_slope_angle = some 0 ∧
    bogieC10b.transform.translation ≠ Vec3.mk 0.5 0 0 := by
  refine ⟨?_, trackC10_query_at_t, rfl, ?_⟩
  · rw [update_bogie_transforms]
    have hpt : bogieC10a.bogie.position_on_track = (1.5 : ℝ) := rfl
    rw [hpt, trackC10_query_at_t]
    rfl
  · intro h
    have := congrArg Vec3.x h
    simp [bogieC10b] at this
    norm_num at this

/-! ### Chunk streaming (src/world/terrain.rs) -/

/-- `FAR_GRID_CHUNK_SIZE = 1000` meters. -/
def FAR_GRID_CHUNK_SIZE : ℤ := 1000

/-- `FAR_GRID_RENDER_DISTANCE = 5` far-grid chunks. -/
def FAR_GRID_RENDER_DISTANCE : ℤ := 5

/-- `FarChunkData`: per-chunk registry entry.  Chunk coordinates are exact
integers (the source stores them in an f32 `Vec2`, always holding small
integer values, so the float comparisons below are exact); mesh handles are
numbered tokens. -/
structure FarChunkData where
  pos : ℤ × ℤ
  mesh_handle : ℕ
  near_mesh_handles : List ℕ
  flagged : Bool
  generating_near_chunks : Bool
deriving DecidableEq

/-- `FarChunkData::default()`. -/
def FarChunkData.default : FarChunkData := ⟨(0, 0), 0, [], false, false⟩

/-- The `Terrain` resource: id counter plus the loaded-chunk registry
(a `HashMap<u64, FarChunkData>`, modelled as an association list in
insertion order). -/
structure Terrain where
  id_counter : ℕ
  loaded_chunks : List (ℕ × FarChunkData)
deriving DecidableEq

/-- A spawned `GenerateChunkMeshTask` and, once complete, its result
`(id, task_type, chunk_position, mesh)`.  The world-space offset only feeds
the spawned entity's transform, which is not tracked; the chunk coordinate
is recorded instead. -/
structure PendingTask where
  id : ℕ
  is_far_grid : Bool
  chunk : ℤ × ℤ
deriving DecidableEq

/-- The chunk-related world state: the `Terrain` resource, the spawned
generation-task entities, the spawned `FarGridTerrainChunk` /
`NearGridTerrainChunk` entities (identified by their chunk id), and a
counter handing out mesh-asset handles. -/
structure ChunkWorld where
  terrain : Terrain
  tasks : List PendingTask
  far_entities : List ℕ
  near_entities : List ℕ
  mesh_counter : ℕ
deriving DecidableEq

/-- `get_far_chunk_position`: `floor((pos + chunk_size/2) / chunk_size)`
per axis, on exact reals. -/
noncomputable def get_far_chunk_position (world_position : ℝ × ℝ) : ℤ × ℤ :=
  (⌊(world_position.1 + (FAR_GRID_CHUNK_SIZE : ℝ) / 2) / (FAR_GRID_CHUNK_SIZE : ℝ)⌋,
   ⌊(world_position.2 + (FAR_GRID_CHUNK_SIZE : ℝ) / 2) / (FAR_GRID_CHUNK_SIZE : ℝ)⌋)

/-- The chunk coordinates enumerated by `generate_far_terrain`'s nested
loops: `x` and `y` each range over the half-open interval
`[player_chunk - FAR_GRID_RENDER_DISTANCE, player_chunk + FAR_GRID_RENDER_DISTANCE)`
(Rust `..` ranges exclude their upper bound). -/
def farGridCoords (pc : ℤ × ℤ) : List (ℤ × ℤ) :=
  ((List.range (2 * FAR_GRID_RENDER_DISTANCE).toNat).map
      (fun i : ℕ => pc.1 - FAR_GRID_RENDER_DISTANCE + (i : ℤ))).bind
    (fun x => ((List.range (2 * FAR_GRID_RENDER_DISTANCE).toNat).map
      (fun j : ℕ => pc.2 - FAR_GRID_RENDER_DISTANCE + (j : ℤ))).map (fun y => (x, y)))

/-- Loop body of `generate_far_terrain` (terrain.rs lines 199-222) for one
chunk coordinate: skip already-loaded coordinates, otherwise allocate an id,
dispatch a generation task and insert the registry entry. -/
def generate_far_terrain_step (w : ChunkWorld) (chunk : ℤ × ℤ) : ChunkWorld :=
  if w.terrain.loaded_chunks.any (fun d => d.2.pos == chunk) then w
  else
    let current_id := w.terrain.id_counter
    { w with
      terrain := Terrain.mk (current_id + 1)
        (w.terrain.loaded_chunks ++ [(current_id, { FarChunkData.default with pos := chunk })]),
      tasks := w.tasks ++ [PendingTask.mk current_id true chunk] }

/-- `generate_far_terrain` for a fixed player chunk coordinate. -/
def generate_far_terrain (pc : ℤ × ℤ) (w : ChunkWorld) : ChunkWorld :=
  (farGridCoords pc).foldl generate_far_terrain_step w

/-- `terrain_res.loaded_chunks.get_mut(&id)` followed by a field update:
modifies the matching entry when present, a no-op when the id is absent. -/
def update_chunk_data (l : List (ℕ × FarChunkData)) (id : ℕ)
    (f : FarChunkData → FarChunkData) : List (ℕ × FarChunkData) :=
  l.map (fun e => if e.1 == id then (e.1, f e.2) else e)

/-- The block at the top of `spawn_generated_chunks` (terrain.rs lines
291-295): flag the chunk at grid position `(0, 0)` for near-grid generation
when it is idle. -/
def flag_origin_chunk : List (ℕ × FarChunkData) → List (ℕ × FarChunkData)
  | [] => []
  | (i, d) :: rest =>
    if d.pos == (0, 0) then
      if d.near_mesh_handles.isEmpty && !d.flagged && !d.generating_near_chunks then
        (i, { d with flagged := true }) :: rest
      else (i, d) :: rest
    else (i, d) :: flag_origin_chunk rest

/-- Integration of one completed generation task (terrain.rs lines 298-344):
the finished mesh is added to the asset store, the chunk entity is spawned
and tagged, and the registry entry — when the id is still present — records
the new mesh handle (far grid) or collects it (near grid).  An absent id
leaves the registry untouched: the result is dropped. -/
def integrate_task (w : ChunkWorld) (t : PendingTask) : ChunkWorld :=
  let mesh_handle := w.mesh_counter
  if t.is_far_grid then
    { w with
      mesh_counter := mesh_handle + 1,
      far_entities := w.far_entities ++ [t.id],
      terrain := { w.terrain with loaded_chunks :=
        (update_chunk_data w.terrain.loaded_chunks t.id
          (fun d => { d with mesh_handle := mesh_handle })) } }
  else
    { w with
      mesh_counter := mesh_handle + 1,
      near_entities := w.near_entities ++ [t.id],
      terrain := { w.terrain with loaded_chunks :=
        (update_chunk_data w.terrain.loaded_chunks t.id
          (fun d => { d with generating_near_chunks := false,
                             near_mesh_handles := d.near_mesh_handles ++ [mesh_handle] })) } }

/-- `spawn_generated_chunks`, given the subset of tasks whose background
computation has completed this frame (polling is non-blocking; pending
tasks stay spawned). -/
def spawn_generated_chunks (completed : List PendingTask) (w : ChunkWorld) : ChunkWorld :=
  let w1 := { w with terrain :=
    { w.terrain with loaded_chunks := (flag_origin_chunk w.terrain.loaded_chunks) } }
  let w2 := completed.foldl integrate_task w1
  { w2 with tasks := w2.tasks.filter (fun t => !(completed.contains t)) }

/-- Loop of `remove_unused_terrain` (terrain.rs lines 361-372) over the
snapshot of spawned far-chunk entities: the registry lookup is an `unwrap`
(a panic when the id is missing), and entries strictly outside the closed
`±FAR_GRID_RENDER_DISTANCE` square around the player chunk are evicted. -/
def remove_unused_terrain_go (pc : ℤ × ℤ) :
    List ℕ → ChunkWorld → Except String ChunkWorld
  | [], w => .ok w
  | id :: rest, w =>
    match w.terrain.loaded_chunks.lookup id with
    | none => .error "loaded_chunks.get unwrap failed"
    | some chunk_data =>
      if chunk_data.pos.1 < pc.1 - FAR_GRID_RENDER_DISTANCE ∨
         chunk_data.pos.1 > pc.1 + FAR_GRID_RENDER_DISTANCE ∨
         chunk_data.pos.2 < pc.2 - FAR_GRID_RENDER_DISTANCE ∨
         chunk_data.pos.2 > pc.2 + FAR_GRID_RENDER_DISTANCE then
        remove_unused_terrain_go pc rest
          { w with
            far_entities := w.far_entities.erase id,
            terrain := { w.terrain with loaded_chunks :=
              (w.terrain.loaded_chunks.filter (fun e => e.1 != id)) } }
      else remove_unused_terrain_go pc rest w

/-- `remove_unused_terrain` for a fixed player chunk coordinate. -/
def remove_unused_terrain (pc : ℤ × ℤ) (w : ChunkWorld) : Except String ChunkWorld :=
  remove_unused_terrain_go pc w.far_entities w

/-- The world before anything is generated. -/
def emptyChunkWorld : ChunkWorld := ChunkWorld.mk (Terrain.mk 0 []) [] [] [] 0

/-- Chunk coordinates currently in the loaded-chunk registry. -/
def loadedCoords (w : ChunkWorld) : List (ℤ × ℤ) :=
  w.terrain.loaded_chunks.map (fun e => e.2.pos)

/-! ### Lemmas about the generation coordinate grid -/

/-- Membership in the generation grid: the half-open square
`[pc - r, pc + r) × [pc - r, pc + r)`. -/
theorem farGridCoords_mem (pc c : ℤ × ℤ) :
    c ∈ farGridCoords pc ↔
      pc.1 - FAR_GRID_RENDER_DISTANCE ≤ c.1 ∧ c.1 < pc.1 + FAR_GRID_RENDER_DISTANCE ∧
      pc.2 - FAR_GRID_RENDER_DISTANCE ≤ c.2 ∧ c.2 < pc.2 + FAR_GRID_RENDER_DISTANCE := by
  unfold farGridCoords FAR_GRID_RENDER_DISTANCE
  rw [show ((2 : ℤ) * 5).toNat = 10 from rfl]
  constructor
  · intro hmem
    rcases List.mem_bind.mp hmem with ⟨x, hx, hc⟩
    rcases List.mem_map.mp hx with ⟨i, hi, rfl⟩
    rcases List.mem_map.mp hc with ⟨y, hy, rfl⟩
    rcases List.mem_map.mp hy with ⟨j, hj, rfl⟩
    rw [List.mem_range] at hi hj
    refine ⟨by omega, by omega, by omega, by omega⟩
  · rintro ⟨h1, h2, h3, h4⟩
    refine List.mem_bind.mpr ⟨c.1, List.mem_map.mpr
      ⟨(c.1 - (pc.1 - 5)).toNat, List.mem_range.mpr (by omega), by omega⟩,
      List.mem_map.mpr ⟨c.2, List.mem_map.mpr
        ⟨(c.2 - (pc.2 - 5)).toNat, List.mem_range.mpr (by omega), by omega⟩, rfl⟩⟩

/-- The generation grid has no duplicate coordinates. -/
theorem farGridCoords_nodup (pc : ℤ × ℤ) : (farGridCoords pc).Nodup := by
  unfold farGridCoords
  rw [List.nodup_bind]
  constructor
  · intro x _
    exact List.Nodup.map (fun a b h => congrArg Prod.snd h)
      (List.Nodup.map (fun a b h => by simpa using h) (List.nodup_range _))
  · have hxs : ((List.range (2 * FAR_GRID_RENDER_DISTANCE).toNat).map
        (fun i : ℕ => pc.1 - FAR_GRID_RENDER_DISTANCE + (i : ℤ))).Pairwise (· ≠ ·) :=
      List.Nodup.map (fun a b h => by simpa using h) (List.nodup_range _)
    refine hxs.imp ?_
    intro x1 x2 hne p hp1 hp2
    rcases List.mem_map.mp hp1 with ⟨y1, _, rfl⟩
    rcases List.mem_map.mp hp2 with ⟨y2, _, heq⟩
    exact hne (congrArg Prod.fst heq).symm

/-- The generation grid enumerates `(2r)^2 = 100` coordinates. -/
theorem farGridCoords_length (pc : ℤ × ℤ) : (farGridCoords pc).length = 100 := by
  unfold farGridCoords FAR_GRID_RENDER_DISTANCE
  rw [show ((2 : ℤ) * 5).toNat = 10 from rfl]
  rw [List.length_bind]
  simp only [List.map_map, Function.comp_def, List.length_map, List.length_range]
  rw [List.map_const', List.length_range, List.sum_const_nat]

/-! ### Lemmas about generation, integration and eviction -/

/-- Registry entries produced by a generation pass that starts with id
counter `k` and visits the coordinates in order. -/
def genEntries (k : ℕ) : List (ℤ × ℤ) → List (ℕ × FarChunkData)
  | [] => []
  | c :: rest => (k, { FarChunkData.default with pos := c }) :: genEntries (k + 1) rest

/-- Generation tasks dispatched by the same pass. -/
def genTasks (k : ℕ) : List (ℤ × ℤ) → List PendingTask
  | [] => []
  | c :: rest => PendingTask.mk k true c :: genTasks (k + 1) rest

theorem genEntries_posList (k : ℕ) (cs : List (ℤ × ℤ)) :
    (genEntries k cs).map (fun e => e.2.pos) = cs := by
  induction cs generalizing k with
  | nil => rfl
  | cons c rest ih => simp [genEntries, ih]

theorem genEntries_keys_eq_taskIds (k : ℕ) (cs : List (ℤ × ℤ)) :
    (genEntries k cs).map (fun e => e.1) = (genTasks k cs).map (fun t => t.id) := by
  induction cs generalizing k with
  | nil => rfl
  | cons c rest ih => simp [genEntries, genTasks, ih]

theorem genTasks_all_far (k : ℕ) (cs : List (ℤ × ℤ)) :
    ∀ t ∈ genTasks k cs, t.is_far_grid = true := by
  induction cs generalizing k with
  | nil => intro t ht; cases ht
  | cons c rest ih =>
    intro t ht
    rcases ht with _ | ht
    · rfl
    · exact ih (k + 1) t (by assumption)

/-- A generation pass over fresh, duplicate-free coordinates appends one
registry entry and one task per coordinate, with consecutive ids. -/
theorem generate_fold (cs : List (ℤ × ℤ)) :
    ∀ w : ChunkWorld,
    (∀ c ∈ cs, ∀ e ∈ w.terrain.loaded_chunks, e.2.pos ≠ c) → cs.Nodup →
    cs.foldl generate_far_terrain_step w =
      { w with
        terrain := Terrain.mk (w.terrain.id_counter + cs.length)
          (w.terrain.loaded_chunks ++ genEntries w.terrain.id_counter cs),
        tasks := w.tasks ++ genTasks w.terrain.id_counter cs } := by
  induction cs with
  | nil => intro w _ _; simp [genEntries, genTasks]
  | cons c rest ih =>
    intro w hfresh hnodup
    have hany : w.terrain.loaded_chunks.any (fun d => d.2.pos == c) = false := by
      rw [List.any_eq_false]
      intro e he
      simpa using hfresh c (List.mem_cons_self c rest) e he
    rw [List.foldl_cons]
    rw [show generate_far_terrain_step w c =
      { w with
        terrain := Terrain.mk (w.terrain.id_counter + 1)
          (w.terrain.loaded_chunks ++
            [(w.terrain.id_counter, { FarChunkData.default with pos := c })]),
        tasks := w.tasks ++ [PendingTask.mk w.terrain.id_counter true c] } by
      unfold generate_far_terrain_step
      rw [hany]
      simp]
    rw [ih _ ?_ (List.Nodup.of_cons hnodup)]
    · simp only [List.length_cons, genEntries, genTasks, List.append_assoc,
        List.singleton_append]
      congr 1
      · congr 1
        omega
    · intro c2 hc2 e he
      rcases List.mem_append.mp he with he | he
      · exact hfresh c2 (List.mem_cons_of_mem c hc2) e he
      · rcases List.mem_singleton.mp he with rfl
        show FarChunkData.pos { FarChunkData.default with pos := c } ≠ c2
        have : c ≠ c2 := fun h => (List.nodup_cons.mp hnodup).1 (h ▸ hc2)
        simpa using this

/-- A generation pass over coordinates that are all present already is a
no-op. -/
theorem generate_fold_all_present (cs : List (ℤ × ℤ)) :
    ∀ w : ChunkWorld,
    (∀ c ∈ cs, ∃ e ∈ w.terrain.loaded_chunks, e.2.pos = c) →
    cs.foldl generate_far_terrain_step w = w := by
  induction cs with
  | nil => intro w _; rfl
  | cons c rest ih =>
    intro w hpresent
    have hany : w.terrain.loaded_chunks.any (fun d => d.2.pos == c) = true := by
      rw [List.any_eq_true]
      rcases hpresent c (List.mem_cons_self c rest) with ⟨e, he, hpos⟩
      exact ⟨e, he, by simpa using hpos⟩
    rw [List.foldl_cons]
    rw [show generate_far_terrain_step w c = w by
      unfold generate_far_terrain_step; rw [hany]; simp]
    exact ih w (fun c2 hc2 => hpresent c2 (List.mem_cons_of_mem c hc2))

/-- Registry view: ids with their chunk coordinates. -/
def idPosList (l : List (ℕ × FarChunkData)) : List (ℕ × (ℤ × ℤ)) :=
  l.map (fun e => (e.1, e.2.pos))

theorem idPosList_flag_origin (l : List (ℕ × FarChunkData)) :
    idPosList (flag_origin_chunk l) = idPosList l := by
  induction l with
  | nil => rfl
  | cons e rest ih =>
    obtain ⟨i, d⟩ := e
    unfold flag_origin_chunk
    by_cases hpos : d.pos == (0, 0)
    · rw [if_pos hpos]
      by_cases hcond : d.near_mesh_handles.isEmpty && !d.flagged && !d.generating_near_chunks
      · rw [if_pos hcond]
        simp [idPosList]
      · rw [if_neg hcond]
    · rw [if_neg hpos]
      simp only [idPosList, List.map_cons] at ih ⊢
      rw [ih]

theorem idPosList_update_chunk_data (l : List (ℕ × FarChunkData)) (id : ℕ)
    (f : FarChunkData → FarChunkData) (hf : ∀ d, (f d).pos = d.pos) :
    idPosList (update_chunk_data l id f) = idPosList l := by
  induction l with
  | nil => rfl
  | cons e rest ih =>
    unfold update_chunk_data at ih ⊢
    simp only [List.map_cons, idPosList] at ih ⊢
    rw [ih]
    by_cases hid : e.1 == id
    · rw [if_pos hid]
      simp [hf]
    · rw [if_neg hid]

/-- Integrating a batch of far-grid task results appends their ids to the
far-chunk entities, leaves the id/coordinate view of the registry unchanged
and leaves the task list alone. -/
theorem integrate_fold_far (ts : List PendingTask) :
    ∀ w : ChunkWorld, (∀ t ∈ ts, t.is_far_grid = true) →
    (ts.foldl integrate_task w).far_entities = w.far_entities ++ ts.map (fun t => t.id) ∧
    idPosList (ts.foldl integrate_task w).terrain.loaded_chunks =
      idPosList w.terrain.loaded_chunks ∧
    (ts.foldl integrate_task w).tasks = w.tasks := by
  induction ts with
  | nil => intro w _; simp
  | cons t rest ih =>
    intro w hfar
    have hstep : integrate_task w t =
        { w with
          mesh_counter := w.mesh_counter + 1,
          far_entities := w.far_entities ++ [t.id],
          terrain := { w.terrain with loaded_chunks :=
            (update_chunk_data w.terrain.loaded_chunks t.id
              (fun d => { d with mesh_handle := w.mesh_counter })) } } := by
      unfold integrate_task
      rw [hfar t (List.mem_cons_self t rest)]
      simp
    rw [List.foldl_cons, hstep]
    obtain ⟨h1, h2, h3⟩ := ih _ (fun t2 ht2 => hfar t2 (List.mem_cons_of_mem t ht2))
    refine ⟨?_, ?_, h3⟩
    · rw [h1]
      simp
    · exact h2.trans (idPosList_update_chunk_data w.terrain.loaded_chunks t.id
        (fun d => { d with mesh_handle := w.mesh_counter }) (fun d => rfl))

/-- A key present in the id/coordinate view admits a successful registry
lookup, returning an entry at the recorded coordinate. -/
theorem lookup_pos_of_mem_idPosList (l : List (ℕ × FarChunkData)) (id : ℕ)
    (c : ℤ × ℤ) (h : (id, c) ∈ idPosList l) :
    ∃ d, l.lookup id = some d ∧ d.pos ∈ (idPosList l).map (fun e => e.2) := by
  induction l with
  | nil => cases h
  | cons e rest ih =>
    obtain ⟨k, v⟩ := e
    by_cases hid : id == k
    · refine ⟨v, ?_, ?_⟩
      · show List.lookup id ((k, v) :: rest) = some v
        unfold List.lookup
        rw [hid]
      · simp [idPosList]
    · have hidf : (id == k) = false := by simpa using hid
      have h2 : (id, c) ∈ idPosList rest := by
        rcases List.mem_cons.mp h with h | h
        · exact absurd (by simpa using congrArg Prod.fst h) (by simpa using hid)
        · exact h
      rcases ih h2 with ⟨d, hd, hdpos⟩
      refine ⟨d, ?_, ?_⟩
      · show List.lookup id ((k, v) :: rest) = some d
        unfold List.lookup
        rw [hidf]
        exact hd
      · simp only [idPosList, List.map_cons]
        right
        rw [List.map_map]
        simp only [idPosList] at hdpos
        rw [List.map_map] at hdpos
        exact hdpos

/-- An eviction pass over far-chunk entities whose registry entries all sit
inside the closed `±FAR_GRID_RENDER_DISTANCE` square is a successful no-op. -/
theorem remove_go_ok (pc : ℤ × ℤ) (ids : List ℕ) :
    ∀ w : ChunkWorld,
    (∀ id ∈ ids, ∃ d, w.terrain.loaded_chunks.lookup id = some d ∧
      ¬(d.pos.1 < pc.1 - FAR_GRID_RENDER_DISTANCE ∨
        d.pos.1 > pc.1 + FAR_GRID_RENDER_DISTANCE ∨
        d.pos.2 < pc.2 - FAR_GRID_RENDER_DISTANCE ∨
        d.pos.2 > pc.2 + FAR_GRID_RENDER_DISTANCE)) →
    remove_unused_terrain_go pc ids w = .ok w := by
  induction ids with
  | nil => intro w _; rfl
  | cons id rest ih =>
    intro w hin
    rcases hin id (List.mem_cons_self id rest) with ⟨d, hlk, hbounds⟩
    unfold remove_unused_terrain_go
    rw [hlk]
    simp only []
    rw [if_neg hbounds]
    exact ih w (fun id2 hid2 => hin id2 (List.mem_cons_of_mem id hid2))

/-! ### Claim C3: the stabilized loaded-chunk set -/

/-- C3 (amended): starting from nothing, one generation pass for a fixed
viewpoint chunk `pc`, integration of all dispatched jobs and an eviction
pass stabilize: eviction is a successful no-op, the loaded coordinates are
exactly the half-open square `[pc - r, pc + r) × [pc - r, pc + r)` — with
no duplicates, `(2r)^2 = 100` chunks in total — and a further generation
pass changes nothing.  (The set is not the closed Chebyshev ball, and it is
not centered on `pc`.) -/
theorem chunk_streaming_stable_set (pc : ℤ × ℤ) (w2 : ChunkWorld)
    (hw2 : w2 = spawn_generated_chunks
      (generate_far_terrain pc emptyChunkWorld).tasks
      (generate_far_terrain pc emptyChunkWorld)) :
    remove_unused_terrain pc w2 = .ok w2 ∧
    (∀ c : ℤ × ℤ, c ∈ loadedCoords w2 ↔
      (pc.1 - FAR_GRID_RENDER_DISTANCE ≤ c.1 ∧ c.1 < pc.1 + FAR_GRID_RENDER_DISTANCE ∧
       pc.2 - FAR_GRID_RENDER_DISTANCE ≤ c.2 ∧ c.2 < pc.2 + FAR_GRID_RENDER_DISTANCE)) ∧
    (loadedCoords w2).Nodup ∧
    (loadedCoords w2).length = 100 ∧
    generate_far_terrain pc w2 = w2 := by
  have hw1 : generate_far_terrain pc emptyChunkWorld =
      ChunkWorld.mk
        (Terrain.mk (0 + (farGridCoords pc).length)
          ([] ++ genEntries 0 (farGridCoords pc)))
        ([] ++ genTasks 0 (farGridCoords pc)) [] [] 0 := by
    unfold generate_far_terrain
    exact generate_fold (farGridCoords pc) emptyChunkWorld
      (by intro c _ e he; cases he) (farGridCoords_nodup pc)
  simp only [List.nil_append, Nat.zero_add] at hw1
  rw [hw1] at hw2
  -- unfold the spawn pipeline
  have hfold := integrate_fold_far (genTasks 0 (farGridCoords pc))
    (ChunkWorld.mk
      (Terrain.mk (farGridCoords pc).length
        (flag_origin_chunk (genEntries 0 (farGridCoords pc))))
      (genTasks 0 (farGridCoords pc)) [] [] 0)
    (genTasks_all_far 0 (farGridCoords pc))
  obtain ⟨hfe, hidp, htk⟩ := hfold
  have hw2load : idPosList w2.terrain.loaded_chunks =
      idPosList (genEntries 0 (farGridCoords pc)) := by
    rw [hw2]
    unfold spawn_generated_chunks
    simp only []
    exact hidp.trans (idPosList_flag_origin _)
  have hw2fe : w2.far_entities =
      (genTasks 0 (farGridCoords pc)).map (fun t => t.id) := by
    rw [hw2]
    unfold spawn_generated_chunks
    simp only []
    rw [hfe]
    rfl
  have hcoords : loadedCoords w2 = farGridCoords pc := by
    unfold loadedCoords
    have h := congrArg (List.map (fun e : ℕ × (ℤ × ℤ) => e.2)) hw2load
    simp only [idPosList, List.map_map] at h
    exact h.trans (genEntries_posList 0 (farGridCoords pc))
  refine ⟨?_, ?_, ?_, ?_, ?_⟩
  · unfold remove_unused_terrain
    apply remove_go_ok
    intro id hid
    rw [hw2fe, ← genEntries_keys_eq_taskIds] at hid
    have hid2 : id ∈ (idPosList w2.terrain.loaded_chunks).map (fun e => e.1) := by
      rw [hw2load]
      simpa [idPosList, List.map_map] using hid
    rcases List.mem_map.mp hid2 with ⟨p, hp, rfl⟩
    have hp2 : (p.1, p.2) ∈ idPosList w2.terrain.loaded_chunks := by
      simpa using hp
    rcases lookup_pos_of_mem_idPosList _ _ _ hp2 with ⟨d, hlk, hdpos⟩
    refine ⟨d, hlk, ?_⟩
    rw [hw2load] at hdpos
    have hdc : d.pos ∈ farGridCoords pc := by
      have h := hdpos
      simp only [idPosList, List.map_map] at h
      rw [show (genEntries 0 (farGridCoords pc)).map
        ((fun e : ℕ × (ℤ × ℤ) => e.2) ∘ (fun e : ℕ × FarChunkData => (e.1, e.2.pos))) =
        (genEntries 0 (farGridCoords pc)).map (fun e => e.2.pos) from rfl] at h
      rw [genEntries_posList] at h
      exact h
    have hb := (farGridCoords_mem pc d.pos).mp hdc
    unfold FAR_GRID_RENDER_DISTANCE at hb ⊢
    omega
  · intro c
    rw [hcoords]
    exact farGridCoords_mem pc c
  · rw [hcoords]
    exact farGridCoords_nodup pc
  · rw [hcoords]
    exact farGridCoords_length pc
  · unfold generate_far_terrain
    apply generate_fold_all_present
    intro c hc
    have : c ∈ loadedCoords w2 := by rw [hcoords]; exact hc
    rcases List.mem_map.mp this with ⟨e, he, hpos⟩
    exact ⟨e, he, hpos⟩

/-- Witness for the amended C3 at the origin viewpoint chunk. -/
theorem chunk_streaming_stable_set_witness :
    (loadedCoords (spawn_generated_chunks
      (generate_far_terrain (0, 0) emptyChunkWorld).tasks
      (generate_far_terrain (0, 0) emptyChunkWorld))).length = 100 :=
  (chunk_streaming_stable_set (0, 0) _ rfl).2.2.2.1

set_option maxRecDepth 20000 in
/-- C3 counterexample: with the viewpoint chunk at the origin, the
coordinate `(5, 0)` lies within the claimed Chebyshev load radius 5, yet it
is never loaded (the generation loops exclude their upper bounds), and the
stabilized registry holds 100 chunks rather than the Chebyshev ball's
`11^2 = 121` — so the loaded set is not the Chebyshev ball, nor centered. -/
theorem chunk_coverage_not_chebyshev :
    (max |(5 : ℤ) - 0| |(0 : ℤ) - 0| ≤ FAR_GRID_RENDER_DISTANCE) ∧
    ((5 : ℤ), (0 : ℤ)) ∉ loadedCoords (spawn_generated_chunks
      (generate_far_terrain (0, 0) emptyChunkWorld).tasks
      (generate_far_terrain (0, 0) emptyChunkWorld)) ∧
    (loadedCoords (spawn_generated_chunks
      (generate_far_terrain (0, 0) emptyChunkWorld).tasks
      (generate_far_terrain (0, 0) emptyChunkWorld))).length = 100 := by
  refine ⟨by decide, by decide, by decide⟩

/-! ### Claim C5: late job completion for an evicted chunk -/

/-- Registry lookup projected to the chunk coordinate. -/
def lookupPos (l : List (ℕ × FarChunkData)) (id : ℕ) : Option (ℤ × ℤ) :=
  (l.lookup id).map (fun d => d.pos)

theorem lookupPos_eq_of_idPosList (l1 : List (ℕ × FarChunkData)) :
    ∀ l2, idPosList l1 = idPosList l2 → ∀ id, lookupPos l1 id = lookupPos l2 id := by
  induction l1 with
  | nil =>
    intro l2 h id
    have : l2 = [] := by
      cases l2 with
      | nil => rfl
      | cons e r => exact absurd h (by simp [idPosList])
    subst this
    rfl
  | cons e1 r1 ih =>
    intro l2 h id
    cases l2 with
    | nil => exact absurd h (by simp [idPosList])
    | cons e2 r2 =>
      simp only [idPosList, List.map_cons, List.cons.injEq, Prod.mk.injEq] at h
      obtain ⟨⟨hk, hp⟩, hrest⟩ := h
      obtain ⟨k1, d1⟩ := e1
      obtain ⟨k2, d2⟩ := e2
      simp only [] at hk hp
      subst hk
      unfold lookupPos List.lookup
      by_cases hid : id == k1
      · rw [hid]
        simpa using hp
      · rw [show (id == k1) = false from by simpa using hid]
        exact ih r2 hrest id

theorem idPosList_filter_ne (l1 : List (ℕ × FarChunkData)) :
    ∀ l2, idPosList l1 = idPosList l2 → ∀ id,
      idPosList (l1.filter (fun e => e.1 != id)) =
      idPosList (l2.filter (fun e => e.1 != id)) := by
  induction l1 with
  | nil =>
    intro l2 h id
    have : l2 = [] := by
      cases l2 with
      | nil => rfl
      | cons e r => exact absurd h (by simp [idPosList])
    subst this
    rfl
  | cons e1 r1 ih =>
    intro l2 h id
    cases l2 with
    | nil => exact absurd h (by simp [idPosList])
    | cons e2 r2 =>
      simp only [idPosList, List.map_cons, List.cons.injEq, Prod.mk.injEq] at h
      obtain ⟨⟨hk, hp⟩, hrest⟩ := h
      obtain ⟨k1, d1⟩ := e1
      obtain ⟨k2, d2⟩ := e2
      simp only [] at hk hp
      subst hk
      simp only [List.filter]
      by_cases hid : k1 != id
      · rw [hid]
        simp only [idPosList, List.map_cons, List.cons.injEq, Prod.mk.injEq]
        exact ⟨⟨by trivial, hp⟩, ih r2 hrest id⟩
      · rw [show (k1 != id) = false from by simpa using hid]
        exact ih r2 hrest id

/-- Eviction succeeds on any world whose registry agrees with a world where
it succeeds, id-and-coordinate-wise, when run over the same entity list. -/
theorem remove_go_ok_of_idPosList (pc : ℤ × ℤ) (ids : List ℕ) :
    ∀ wa wb : ChunkWorld,
    idPosList wa.terrain.loaded_chunks = idPosList wb.terrain.loaded_chunks →
    (∃ wa2, remove_unused_terrain_go pc ids wa = .ok wa2) →
    ∃ wb2, remove_unused_terrain_go pc ids wb = .ok wb2 := by
  induction ids with
  | nil => intro wa wb _ _; exact ⟨wb, rfl⟩
  | cons id rest ih =>
    intro wa wb hreg hok
    obtain ⟨wa2, hwa2⟩ := hok
    have hlp := lookupPos_eq_of_idPosList _ _ hreg id
    unfold remove_unused_terrain_go at hwa2 ⊢
    cases hlka : wa.terrain.loaded_chunks.lookup id with
    | none =>
      rw [hlka] at hwa2
      exact absurd hwa2 (by simp)
    | some da =>
      rw [hlka] at hwa2
      cases hlkb : wb.terrain.loaded_chunks.lookup id with
      | none =>
        rw [lookupPos, hlka, lookupPos, hlkb] at hlp
        exact absurd hlp (by simp)
      | some db =>
        have hpos : da.pos = db.pos := by
          rw [lookupPos, hlka, lookupPos, hlkb] at hlp
          simpa using hlp
        simp only [] at hwa2 ⊢
        by_cases hcond : da.pos.1 < pc.1 - FAR_GRID_RENDER_DISTANCE ∨
            da.pos.1 > pc.1 + FAR_GRID_RENDER_DISTANCE ∨
            da.pos.2 < pc.2 - FAR_GRID_RENDER_DISTANCE ∨
            da.pos.2 > pc.2 + FAR_GRID_RENDER_DISTANCE
        · rw [if_pos hcond] at hwa2
          rw [if_pos (hpos ▸ hcond)]
          exact ih _ _ (idPosList_filter_ne _ _ hreg id) ⟨wa2, hwa2⟩
        · rw [if_neg hcond] at hwa2
          rw [if_neg (hpos ▸ hcond)]
          exact ih _ _ hreg ⟨wa2, hwa2⟩

/-- A `get_mut` update for an id that is not in the registry is a no-op. -/
theorem update_chunk_data_absent (l : List (ℕ × FarChunkData)) (id : ℕ)
    (f : FarChunkData → FarChunkData) (h : ∀ e ∈ l, e.1 ≠ id) :
    update_chunk_data l id f = l := by
  induction l with
  | nil => rfl
  | cons e rest ih =>
    unfold update_chunk_data
    simp only [List.map_cons]
    rw [show (e.1 == id) = false from by
      simpa using h e (List.mem_cons_self e rest)]
    simp only [Bool.false_eq_true, if_false]
    have hrest := ih (fun e2 he2 => h e2 (List.mem_cons_of_mem e he2))
    unfold update_chunk_data at hrest
    rw [hrest]

/-- Keys survive the origin-flagging block. -/
theorem flag_origin_keys (l : List (ℕ × FarChunkData)) :
    (flag_origin_chunk l).map (fun e => e.1) = l.map (fun e => e.1) := by
  have h := congrArg (List.map (fun e : ℕ × (ℤ × ℤ) => e.1)) (idPosList_flag_origin l)
  simpa [idPosList, List.map_map] using h

/-- C5 (amended): integrating a late near-grid result whose chunk id has
already been evicted never panics — the registry update is skipped, so the
result is discarded registry-side (only the unrelated origin-flag block may
toggle a flag), the far-chunk entity list is untouched, and the next
eviction pass still succeeds.  (A late far-grid result would instead spawn
a far-chunk entity with an unregistered id, and the eviction pass's registry
`unwrap` then panics — see the counterexample.) -/
theorem late_near_task_discarded (w : ChunkWorld) (t : PendingTask)
    (pc : ℤ × ℤ) (w' : ChunkWorld)
    (hnear : t.is_far_grid = false)
    (hid : ∀ e ∈ w.terrain.loaded_chunks, e.1 ≠ t.id)
    (hok : remove_unused_terrain pc w = .ok w') :
    (spawn_generated_chunks [t] w).terrain.loaded_chunks =
      flag_origin_chunk w.terrain.loaded_chunks ∧
    (spawn_generated_chunks [t] w).far_entities = w.far_entities ∧
    ∃ w2, remove_unused_terrain pc (spawn_generated_chunks [t] w) = .ok w2 := by
  have hid2 : ∀ e ∈ flag_origin_chunk w.terrain.loaded_chunks, e.1 ≠ t.id := by
    intro e he hne
    have hmem : e.1 ∈ (flag_origin_chunk w.terrain.loaded_chunks).map
        (fun e => e.1) := List.mem_map.mpr ⟨e, he, rfl⟩
    rw [flag_origin_keys] at hmem
    rcases List.mem_map.mp hmem with ⟨e2, he2, hke⟩
    exact hid e2 he2 (by rw [hke, hne])
  have hstep : spawn_generated_chunks [t] w =
      { w with
        terrain := { w.terrain with loaded_chunks :=
          (flag_origin_chunk w.terrain.loaded_chunks) },
        near_entities := w.near_entities ++ [t.id],
        mesh_counter := w.mesh_counter + 1,
        tasks := w.tasks.filter (fun t2 => !([t].contains t2)) } := by
    unfold spawn_generated_chunks
    simp only [List.foldl_cons, List.foldl_nil]
    unfold integrate_task
    rw [hnear]
    simp only [Bool.false_eq_true, if_false]
    rw [update_chunk_data_absent _ _ _ hid2]
  refine ⟨by rw [hstep], by rw [hstep], ?_⟩
  rw [hstep]
  unfold remove_unused_terrain at hok ⊢
  simp only []
  exact remove_go_ok_of_idPosList pc w.far_entities w _
    (by simp only []; exact (idPosList_flag_origin _).symm) ⟨w', hok⟩

set_option maxRecDepth 20000 in
/-- Witness for the amended C5: a one-chunk world evicting nothing, with a
late near-grid result for the foreign id 9. -/
theorem late_near_task_discarded_witness :
    (spawn_generated_chunks [PendingTask.mk 9 false (0, 0)]
        (ChunkWorld.mk (Terrain.mk 2 [(1, FarChunkData.mk (0, 0) 0 [] false true)])
          [] [1] [] 0)).terrain.loaded_chunks =
      flag_origin_chunk [(1, FarChunkData.mk (0, 0) 0 [] false true)] ∧
    (spawn_generated_chunks [PendingTask.mk 9 false (0, 0)]
        (ChunkWorld.mk (Terrain.mk 2 [(1, FarChunkData.mk (0, 0) 0 [] false true)])
          [] [1] [] 0)).far_entities = [1] ∧
    ∃ w2, remove_unused_terrain (0, 0)
      (spawn_generated_chunks [PendingTask.mk 9 false (0, 0)]
        (ChunkWorld.mk (Terrain.mk 2 [(1, FarChunkData.mk (0, 0) 0 [] false true)])
          [] [1] [] 0)) = .ok w2 :=
  late_near_task_discarded
    (ChunkWorld.mk (Terrain.mk 2 [(1, FarChunkData.mk (0, 0) 0 [] false true)])
      [] [1] [] 0)
    (PendingTask.mk 9 false (0, 0)) (0, 0)
    (ChunkWorld.mk (Terrain.mk 2 [(1, FarChunkData.mk (0, 0) 0 [] false true)])
      [] [1] [] 0)
    rfl (by decide) rfl

set_option maxRecDepth 20000 in
/-- C5 counterexample: a late far-grid result for an id absent from the
registry is integrated without touching the registry, but the spawned
far-chunk entity makes the next eviction pass panic on its registry
`unwrap`. -/
theorem late_far_task_then_eviction_panics :
    (spawn_generated_chunks [PendingTask.mk 0 true (0, 0)]
        (ChunkWorld.mk (Terrain.mk 1 []) [PendingTask.mk 0 true (0, 0)] [] [] 0)
      ).terrain.loaded_chunks = [] ∧
    remove_unused_terrain (0, 0)
      (spawn_generated_chunks [PendingTask.mk 0 true (0, 0)]
        (ChunkWorld.mk (Terrain.mk 1 []) [PendingTask.mk 0 true (0, 0)] [] [] 0)) =
      .error "loaded_chunks.get unwrap failed" :=
  ⟨rfl, rfl⟩

/-! ### Route generation (src/world/route_gen.rs) -/

/-- `NODE_LENGTH = 90.`: the distance between each route node. -/
noncomputable def NODE_LENGTH : ℝ := 90

/-- `MAX_TURN_ANGLE = 10` degrees. -/
def MAX_TURN_ANGLE : ℤ := 10

/-- `f32::to_radians`. -/
noncomputable def deg_to_rad (d : ℤ) : ℝ := (d : ℝ) * (Real.pi / 180)

/-- Rust `x as i32` on an `f32`: truncation toward zero. -/
noncomputable def f32_as_i32 (x : ℝ) : ℤ := if x < 0 then -⌊-x⌋ else ⌊x⌋

/-- `Vec2::distance`. -/
noncomputable def dist2 (p q : ℝ × ℝ) : ℝ :=
  Real.sqrt ((p.1 - q.1) ^ 2 + (p.2 - q.2) ^ 2)

/-- `Vec2::length`. -/
noncomputable def norm2 (v : ℝ × ℝ) : ℝ := Real.sqrt (v.1 ^ 2 + v.2 ^ 2)

/-- `calc_absolute_slope`. -/
noncomputable def calc_absolute_slope (dist height1 height2 : ℝ) : ℝ :=
  |(height2 - height1) / dist|

/-- The Rust iterator `(a..b).step_by(s)`: `a, a+s, ...` strictly below `b`. -/
def stepRange (a b : ℤ) (s : ℕ) : List ℤ :=
  (List.range (((b - a).toNat + s - 1) / s)).map (fun i : ℕ => a + (s : ℤ) * i)

/-- Candidate position `Vec2::new(x, y) + starting_point_2d` scanned by
`find_next_path_node` at a given candidate bearing. -/
noncomputable def route_this_pos (sp : Vec3) (angle_deg : ℤ) : ℝ × ℝ :=
  (NODE_LENGTH * Real.cos (deg_to_rad angle_deg) + sp.x,
   NODE_LENGTH * Real.sin (deg_to_rad angle_deg) + sp.z)

/-- Elevation sampled at the candidate position. -/
noncomputable def route_height_here (noise_fn : ℝ → ℝ → ℝ) (sp : Vec3)
    (angle_deg : ℤ) : ℝ :=
  noise_fn (route_this_pos sp angle_deg).1 (route_this_pos sp angle_deg).2

/-- Absolute slope of the candidate step. -/
noncomputable def route_slope (noise_fn : ℝ → ℝ → ℝ) (sp : Vec3)
    (angle_deg : ℤ) : ℝ :=
  calc_absolute_slope (dist2 (route_this_pos sp angle_deg) (sp.x, sp.z))
    sp.y (route_height_here noise_fn sp angle_deg)

/-- The candidate route node built from the candidate position. -/
noncomputable def route_result_node (noise_fn : ℝ → ℝ → ℝ) (sp : Vec3)
    (angle_deg : ℤ) : Vec3 :=
  Vec3.mk (route_this_pos sp angle_deg).1
    (route_height_here noise_fn sp angle_deg + 1)
    (route_this_pos sp angle_deg).2

/-- The scanning loop of `find_next_path_node` (route_gen.rs lines 140-155),
carrying `(result, current_min_slope)`; the update fires on a strictly
smaller slope, so ties keep the earliest-scanned candidate. -/
noncomputable def find_next_go (noise_fn : ℝ → ℝ → ℝ) (sp : Vec3) :
    List ℤ → Vec3 × ℝ → Vec3 × ℝ
  | [], acc => acc
  | angle_deg :: rest, (result, current_min) =>
    if route_slope noise_fn sp angle_deg < current_min then
      find_next_go noise_fn sp rest
        (route_result_node noise_fn sp angle_deg, route_slope noise_fn sp angle_deg)
    else find_next_go noise_fn sp rest (result, current_min)

/-- `find_next_path_node`: result starts at `Vec3::ZERO` with an arbitrarily
large minimum slope of `1000.`. -/
noncomputable def find_next_path_node (noise_fn : ℝ → ℝ → ℝ)
    (starting_point : Vec3) (starting_absolute_angle_deg max_angle_deg : ℤ)
    (angle_step_deg : ℕ) : Vec3 :=
  (find_next_go noise_fn starting_point
    (stepRange (starting_absolute_angle_deg - max_angle_deg)
      (starting_absolute_angle_deg + max_angle_deg + 1) angle_step_deg)
    (Vec3.zero, 1000)).1

/-- The `Route` resource (points keyed by id, insertion-ordered). -/
structure Route where
  id_counter : ℕ
  points : List (ℕ × Vec3)
  points_changed : Bool

/-- `route_gen::is_within_render_distance`. -/
noncomputable def is_within_render_distance (pos : ℝ × ℝ)
    (render_distance_chunks : ℝ) (player_chunk_pos : ℝ × ℝ)
    (chunk_size : ℝ) : Bool :=
  let min_x := (player_chunk_pos.1 - render_distance_chunks) * chunk_size
  let max_x := (player_chunk_pos.1 + render_distance_chunks) * chunk_size
  let min_y := (player_chunk_pos.2 - render_distance_chunks) * chunk_size
  let max_y := (player_chunk_pos.2 + render_distance_chunks) * chunk_size
  if pos.1 > max_x ∨ pos.1 < min_x then false
  else if pos.2 > max_y ∨ pos.2 < min_y then false
  else true

/-- Bearing (in whole degrees) of the last route segment, as
`build_route_path` computes it (route_gen.rs lines 123-126): the `acos` of
the dot product of `route_vector` with the world x axis `(1, 0)` over
`route_vector.length() * 1.0`, converted to degrees and truncated with
`as i32`.  The `acos` discards the sign of the z component. -/
noncomputable def route_bearing_deg (route_point_before_last last_route_point : Vec3) : ℤ :=
  f32_as_i32
    (Real.arccos (((last_route_point.x - route_point_before_last.x) * 1 +
        (last_route_point.z - route_point_before_last.z) * 0) /
      (norm2 (last_route_point.x - route_point_before_last.x,
        last_route_point.z - route_point_before_last.z) * 1)) *
      180 / Real.pi)

/-- `build_route_path` (route_gen.rs lines 102-132): extend the route by one
node chosen among bearings within `±MAX_TURN_ANGLE` degrees of the
`acos`-derived bearing of the last segment.  `TERRAIN_CHUNK_SIZE` and
`RENDER_DISTANCE_CHUNKS` are the far-grid constants (1000 and 5); the
`BTreeMap` point lookups are `unwrap`s. -/
noncomputable def build_route_path (noise_fn : ℝ → ℝ → ℝ)
    (player_position : ℝ × ℝ) (route : Route) : Except String Route :=
  let current_node_id := route.id_counter
  let player_chunk_x : ℤ :=
    ⌊(player_position.1 + (FAR_GRID_CHUNK_SIZE : ℝ) / 2) / (FAR_GRID_CHUNK_SIZE : ℝ)⌋
  let player_chunk_y : ℤ :=
    ⌊(player_position.2 + (FAR_GRID_CHUNK_SIZE : ℝ) / 2) / (FAR_GRID_CHUNK_SIZE : ℝ)⌋
  let player_chunk_pos : ℝ × ℝ := ((player_chunk_x : ℝ), (player_chunk_y : ℝ))
  match route.points.lookup (current_node_id - 1) with
  | none => .error "points.get unwrap failed"
  | some last_route_point =>
    if ¬ (is_within_render_distance (last_route_point.x, last_route_point.z)
        ((FAR_GRID_RENDER_DISTANCE : ℤ) : ℝ) player_chunk_pos
        ((FAR_GRID_CHUNK_SIZE : ℤ) : ℝ) = true) then
      .ok route
    else
      match route.points.lookup (current_node_id - 2) with
      | none => .error "points.get unwrap failed"
      | some route_point_before_last =>
        .ok { route with
          points := route.points ++ [(current_node_id,
            find_next_path_node noise_fn last_route_point
              (route_bearing_deg route_point_before_last last_route_point)
              MAX_TURN_ANGLE 1)],
          id_counter := current_node_id + 1,
          points_changed := true }

/-- Unsigned angle between two plane vectors, via the normalized dot
product. -/
noncomputable def turn_angle (u v : ℝ × ℝ) : ℝ :=
  Real.arccos ((u.1 * v.1 + u.2 * v.2) / (norm2 u * norm2 v))

/-! ### Lemmas about the candidate scan -/

theorem stepRange_one_mem (a b d : ℤ) : d ∈ stepRange a b 1 ↔ a ≤ d ∧ d < b := by
  unfold stepRange
  constructor
  · intro h
    rcases List.mem_map.mp h with ⟨i, hi, rfl⟩
    rw [List.mem_range] at hi
    omega
  · rintro ⟨h1, h2⟩
    exact List.mem_map.mpr ⟨(d - a).toNat, List.mem_range.mpr (by omega), by omega⟩

theorem find_next_go_min_le (noise_fn : ℝ → ℝ → ℝ) (sp : Vec3) (l : List ℤ) :
    ∀ acc : Vec3 × ℝ, (find_next_go noise_fn sp l acc).2 ≤ acc.2 := by
  induction l with
  | nil => intro acc; exact le_refl _
  | cons h rest ih =>
    intro acc
    obtain ⟨res, cur⟩ := acc
    unfold find_next_go
    by_cases hlt : route_slope noise_fn sp h < cur
    · rw [if_pos hlt]
      exact le_trans (ih _) (le_of_lt hlt)
    · rw [if_neg hlt]
      exact ih _

theorem find_next_go_min_lt (noise_fn : ℝ → ℝ → ℝ) (sp : Vec3) (l : List ℤ) :
    ∀ acc : Vec3 × ℝ, (∃ d ∈ l, route_slope noise_fn sp d < acc.2) →
    (find_next_go noise_fn sp l acc).2 < acc.2 := by
  induction l with
  | nil => rintro acc ⟨d, hd, _⟩; cases hd
  | cons h rest ih =>
    rintro ⟨res, cur⟩ ⟨d, hd, hslope⟩
    unfold find_next_go
    by_cases hlt : route_slope noise_fn sp h < cur
    · rw [if_pos hlt]
      exact lt_of_le_of_lt (find_next_go_min_le noise_fn sp rest _) hlt
    · rw [if_neg hlt]
      rcases List.mem_cons.mp hd with rfl | hd2
      · exact absurd hslope hlt
      · exact ih (res, cur) ⟨d, hd2, hslope⟩

theorem find_next_go_cases (noise_fn : ℝ → ℝ → ℝ) (sp : Vec3) (l : List ℤ) :
    ∀ acc : Vec3 × ℝ, find_next_go noise_fn sp l acc = acc ∨
      ∃ d ∈ l, find_next_go noise_fn sp l acc =
        (route_result_node noise_fn sp d, route_slope noise_fn sp d) := by
  induction l with
  | nil => intro acc; exact Or.inl rfl
  | cons h rest ih =>
    intro acc
    obtain ⟨res, cur⟩ := acc
    unfold find_next_go
    by_cases hlt : route_slope noise_fn sp h < cur
    · rw [if_pos hlt]
      rcases ih (route_result_node noise_fn sp h, route_slope noise_fn sp h) with heq | ⟨d, hd, heq⟩
      · exact Or.inr ⟨h, List.mem_cons_self h rest, heq⟩
      · exact Or.inr ⟨d, List.mem_cons_of_mem h hd, heq⟩
    · rw [if_neg hlt]
      rcases ih (res, cur) with heq | ⟨d, hd, heq⟩
      · exact Or.inl heq
      · exact Or.inr ⟨d, List.mem_cons_of_mem h hd, heq⟩

/-- When some scanned candidate beats the running minimum, the scan returns
one of the scanned candidates. -/
theorem find_next_go_picks_candidate (noise_fn : ℝ → ℝ → ℝ) (sp : Vec3)
    (l : List ℤ) (acc : Vec3 × ℝ)
    (hex : ∃ d ∈ l, route_slope noise_fn sp d < acc.2) :
    ∃ d ∈ l, find_next_go noise_fn sp l acc =
      (route_result_node noise_fn sp d, route_slope noise_fn sp d) := by
  rcases find_next_go_cases noise_fn sp l acc with heq | hcand
  · have := find_next_go_min_lt noise_fn sp l acc hex
    rw [heq] at this
    exact absurd this (lt_irrefl _)
  · exact hcand

theorem find_next_go_noop (noise_fn : ℝ → ℝ → ℝ) (sp : Vec3) (l : List ℤ) :
    ∀ acc : Vec3 × ℝ, (∀ d ∈ l, ¬ route_slope noise_fn sp d < acc.2) →
    find_next_go noise_fn sp l acc = acc := by
  induction l with
  | nil => intro acc _; rfl
  | cons h rest ih =>
    intro acc hall
    obtain ⟨res, cur⟩ := acc
    unfold find_next_go
    rw [if_neg (hall h (List.mem_cons_self h rest))]
    exact ih (res, cur) (fun d hd => hall d (List.mem_cons_of_mem h hd))

/-- With equal slopes everywhere, the scan keeps the earliest candidate. -/
theorem find_next_go_first_of_const (noise_fn : ℝ → ℝ → ℝ) (sp : Vec3)
    (h : ℤ) (l : List ℤ) (acc : Vec3 × ℝ)
    (hlt : route_slope noise_fn sp h < acc.2)
    (hconst : ∀ d ∈ l, route_slope noise_fn sp d = route_slope noise_fn sp h) :
    find_next_go noise_fn sp (h :: l) acc =
      (route_result_node noise_fn sp h, route_slope noise_fn sp h) := by
  obtain ⟨res, cur⟩ := acc
  unfold find_next_go
  rw [if_pos hlt]
  exact find_next_go_noop noise_fn sp l _
    (fun d hd => by rw [hconst d hd]; exact lt_irrefl _)

/-- Each scanned candidate sits at horizontal distance exactly
`NODE_LENGTH` from the starting point. -/
theorem route_this_pos_dist (sp : Vec3) (d : ℤ) :
    dist2 (route_this_pos sp d) (sp.x, sp.z) = NODE_LENGTH := by
  unfold dist2 route_this_pos NODE_LENGTH
  rw [show (90 * Real.cos (deg_to_rad d) + sp.x - sp.x) ^ 2 +
      (90 * Real.sin (deg_to_rad d) + sp.z - sp.z) ^ 2 =
      (90 : ℝ) ^ 2 * ((Real.sin (deg_to_rad d)) ^ 2 + (Real.cos (deg_to_rad d)) ^ 2)
    by ring]
  rw [Real.sin_sq_add_cos_sq, mul_one]
  exact Real.sqrt_sq (by norm_num)

/-! ### Claim C7: step distance between consecutive route points -/

/-- C7 (amended): whenever some scanned candidate has slope below the
initial minimum `1000.` (so the scan returns an actual candidate), the next
route node sits at horizontal (x,z) distance exactly `NODE_LENGTH = 90`
from the previous one; its full 3D distance is
`sqrt(NODE_LENGTH^2 + dy^2)`, which is at least `NODE_LENGTH` and exceeds
it whenever the elevations differ. -/
theorem route_step_horizontal_distance (noise_fn : ℝ → ℝ → ℝ) (sp : Vec3)
    (s m : ℤ) (step : ℕ)
    (hex : ∃ d ∈ stepRange (s - m) (s + m + 1) step,
      route_slope noise_fn sp d < 1000) :
    dist2 ((find_next_path_node noise_fn sp s m step).x,
        (find_next_path_node noise_fn sp s m step).z) (sp.x, sp.z) =
      NODE_LENGTH ∧
    Vec3.distance sp (find_next_path_node noise_fn sp s m step) =
      Real.sqrt (NODE_LENGTH ^ 2 +
        ((find_next_path_node noise_fn sp s m step).y - sp.y) ^ 2) ∧
    NODE_LENGTH ≤ Vec3.distance sp (find_next_path_node noise_fn sp s m step) := by
  obtain ⟨d, hd, heq⟩ := find_next_go_picks_candidate noise_fn sp
    (stepRange (s - m) (s + m + 1) step) (Vec3.zero, 1000) hex
  have hr : find_next_path_node noise_fn sp s m step =
      route_result_node noise_fn sp d := by
    unfold find_next_path_node
    rw [heq]
  rw [hr]
  have hxz : (route_result_node noise_fn sp d).x = (route_this_pos sp d).1 ∧
      (route_result_node noise_fn sp d).z = (route_this_pos sp d).2 :=
    ⟨rfl, rfl⟩
  have h1 : dist2 ((route_result_node noise_fn sp d).x,
      (route_result_node noise_fn sp d).z) (sp.x, sp.z) = NODE_LENGTH := by
    rw [hxz.1, hxz.2]
    exact route_this_pos_dist sp d
  have hA : ((route_result_node noise_fn sp d).x - sp.x) ^ 2 +
      ((route_result_node noise_fn sp d).z - sp.z) ^ 2 = NODE_LENGTH ^ 2 := by
    have h2 := congrArg (fun t => t ^ 2) h1
    simp only [] at h2
    rw [dist2] at h2
    rw [Real.sq_sqrt (by positivity)] at h2
    simpa using h2
  refine ⟨h1, ?_, ?_⟩
  · unfold Vec3.distance
    rw [show ((route_result_node noise_fn sp d).x - sp.x) ^ 2 +
        ((route_result_node noise_fn sp d).y - sp.y) ^ 2 +
        ((route_result_node noise_fn sp d).z - sp.z) ^ 2 =
        (((route_result_node noise_fn sp d).x - sp.x) ^ 2 +
          ((route_result_node noise_fn sp d).z - sp.z) ^ 2) +
        ((route_result_node noise_fn sp d).y - sp.y) ^ 2 by ring]
    rw [hA]
  · unfold Vec3.distance
    rw [show ((route_result_node noise_fn sp d).x - sp.x) ^ 2 +
        ((route_result_node noise_fn sp d).y - sp.y) ^ 2 +
        ((route_result_node noise_fn sp d).z - sp.z) ^ 2 =
        (((route_result_node noise_fn sp d).x - sp.x) ^ 2 +
          ((route_result_node noise_fn sp d).z - sp.z) ^ 2) +
        ((route_result_node noise_fn sp d).y - sp.y) ^ 2 by ring]
    rw [hA]
    calc NODE_LENGTH = Real.sqrt (NODE_LENGTH ^ 2) := by
          rw [Real.sqrt_sq (by unfold NODE_LENGTH; norm_num)]
      _ ≤ _ := Real.sqrt_le_sqrt (le_add_of_nonneg_right (by positivity))

/-- The concrete scan hypothesis used by the C7 witness and counterexample:
with flat noise and a start elevation of 5, every candidate slope is
`5/90 < 1000`. -/
theorem route_slope_flat_lt (d : ℤ) :
    route_slope (fun _ _ => 0) (Vec3.mk 0 5 0) d < 1000 := by
  unfold route_slope calc_absolute_slope route_height_here
  rw [route_this_pos_dist]
  unfold NODE_LENGTH
  rw [show ((0 : ℝ) - (Vec3.mk 0 5 0).y) / 90 = -(1 / 18) by norm_num, abs_neg,
    abs_of_nonneg (by norm_num)]
  norm_num

/-- Witness for the amended C7 on flat noise from `(0, 5, 0)`. -/
theorem route_step_horizontal_distance_witness :
    dist2 ((find_next_path_node (fun _ _ => 0) (Vec3.mk 0 5 0) 90 10 1).x,
        (find_next_path_node (fun _ _ => 0) (Vec3.mk 0 5 0) 90 10 1).z)
        ((Vec3.mk 0 5 0).x, (Vec3.mk 0 5 0).z) = NODE_LENGTH ∧
    Vec3.distance (Vec3.mk 0 5 0)
        (find_next_path_node (fun _ _ => 0) (Vec3.mk 0 5 0) 90 10 1) =
      Real.sqrt (NODE_LENGTH ^ 2 +
        ((find_next_path_node (fun _ _ => 0) (Vec3.mk 0 5 0) 90 10 1).y -
          (Vec3.mk 0 5 0).y) ^ 2) ∧
    NODE_LENGTH ≤ Vec3.distance (Vec3.mk 0 5 0)
        (find_next_path_node (fun _ _ => 0) (Vec3.mk 0 5 0) 90 10 1) :=
  route_step_horizontal_distance (fun _ _ => 0) (Vec3.mk 0 5 0) 90 10 1
    ⟨80, (stepRange_one_mem _ _ _).mpr (by norm_num), route_slope_flat_lt 80⟩

/-- C7 counterexample: on flat terrain five units below the current node,
the next node is strictly farther than `NODE_LENGTH = 90` in 3D (the step
length is horizontal only), refuting both "equals 90" and "never greater
than 90" for the 3D distance. -/
theorem route_step_exceeds_ninety :
    NODE_LENGTH < Vec3.distance (Vec3.mk 0 5 0)
      (find_next_path_node (fun _ _ => 0) (Vec3.mk 0 5 0) 90 10 1) ∧
    Vec3.distance (Vec3.mk 0 5 0)
      (find_next_path_node (fun _ _ => 0) (Vec3.mk 0 5 0) 90 10 1) ≠
      NODE_LENGTH := by
  obtain ⟨d, hd, heq⟩ := find_next_go_picks_candidate (fun _ _ => 0)
    (Vec3.mk 0 5 0) (stepRange (90 - 10) (90 + 10 + 1) 1) (Vec3.zero, 1000)
    ⟨80, (stepRange_one_mem _ _ _).mpr (by norm_num), route_slope_flat_lt 80⟩
  have hr : find_next_path_node (fun _ _ => 0) (Vec3.mk 0 5 0) 90 10 1 =
      route_result_node (fun _ _ => 0) (Vec3.mk 0 5 0) d := by
    unfold find_next_path_node
    rw [heq]
  have hA : ((route_result_node (fun _ _ => 0) (Vec3.mk 0 5 0) d).x -
      (Vec3.mk 0 5 0).x) ^ 2 +
      ((route_result_node (fun _ _ => 0) (Vec3.mk 0 5 0) d).z -
      (Vec3.mk 0 5 0).z) ^ 2 = NODE_LENGTH ^ 2 := by
    have h1 : dist2 ((route_this_pos (Vec3.mk 0 5 0) d).1,
        (route_this_pos (Vec3.mk 0 5 0) d).2)
        ((Vec3.mk 0 5 0).x, (Vec3.mk 0 5 0).z) = NODE_LENGTH := by
      exact route_this_pos_dist (Vec3.mk 0 5 0) d
    have h2 := congrArg (fun t => t ^ 2) h1
    simp only [] at h2
    rw [dist2] at h2
    rw [Real.sq_sqrt (by positivity)] at h2
    simpa using h2
  have hy : (route_result_node (fun _ _ => 0) (Vec3.mk 0 5 0) d).y = 1 := by
    unfold route_result_node route_height_here
    norm_num
  have hdist : Vec3.distance (Vec3.mk 0 5 0)
      (find_next_path_node (fun _ _ => 0) (Vec3.mk 0 5 0) 90 10 1) =
      Real.sqrt (NODE_LENGTH ^ 2 + 16) := by
    rw [hr]
    unfold Vec3.distance
    rw [show ((route_result_node (fun _ _ => 0) (Vec3.mk 0 5 0) d).x -
        (Vec3.mk 0 5 0).x) ^ 2 +
        ((route_result_node (fun _ _ => 0) (Vec3.mk 0 5 0) d).y -
        (Vec3.mk 0 5 0).y) ^ 2 +
        ((route_result_node (fun _ _ => 0) (Vec3.mk 0 5 0) d).z -
        (Vec3.mk 0 5 0).z) ^ 2 =
        (((route_result_node (fun _ _ => 0) (Vec3.mk 0 5 0) d).x -
          (Vec3.mk 0 5 0).x) ^ 2 +
        ((route_result_node (fun _ _ => 0) (Vec3.mk 0 5 0) d).z -
          (Vec3.mk 0 5 0).z) ^ 2) +
        ((route_result_node (fun _ _ => 0) (Vec3.mk 0 5 0) d).y -
          (Vec3.mk 0 5 0).y) ^ 2 by ring]
    rw [hA, hy]
    norm_num
  constructor
  · rw [hdist]
    have : NODE_LENGTH = Real.sqrt (NODE_LENGTH ^ 2) := by
      rw [Real.sqrt_sq (by unfold NODE_LENGTH; norm_num)]
    rw [this]
    exact Real.sqrt_lt_sqrt (by positivity) (by unfold NODE_LENGTH; norm_num)
  · rw [hdist]
    intro hcontra
    have : Real.sqrt (NODE_LENGTH ^ 2 + 16) = Real.sqrt (NODE_LENGTH ^ 2) := by
      rw [hcontra, Real.sqrt_sq (by unfold NODE_LENGTH; norm_num)]
    have h16 : NODE_LENGTH ^ 2 + 16 = NODE_LENGTH ^ 2 := by
      have ha := congrArg (fun t => t ^ 2) this
      simp only [] at ha
      rw [Real.sq_sqrt (by positivity), Real.sq_sqrt (by positivity)] at ha
      exact ha
    norm_num at h16

/-! ### Claim C2: turn-angle bound -/

theorem norm2_cos_sin (θ : ℝ) :
    norm2 (NODE_LENGTH * Real.cos θ, NODE_LENGTH * Real.sin θ) = NODE_LENGTH := by
  unfold norm2 NODE_LENGTH
  rw [show (90 * Real.cos θ) ^ 2 + (90 * Real.sin θ) ^ 2 =
      (90 : ℝ) ^ 2 * ((Real.sin θ) ^ 2 + (Real.cos θ) ^ 2) by ring]
  rw [Real.sin_sq_add_cos_sq, mul_one]
  exact Real.sqrt_sq (by norm_num)

theorem route_slope_const (c : ℝ) (sp : Vec3) (d : ℤ) :
    route_slope (fun _ _ => c) sp d = |(c - sp.y) / NODE_LENGTH| := by
  unfold route_slope calc_absolute_slope route_height_here
  rw [route_this_pos_dist]

theorem stepRange_one_cons (a b : ℤ) (h : a < b) :
    stepRange a b 1 = a :: stepRange (a + 1) b 1 := by
  unfold stepRange
  have hcount : ((b - a).toNat + 1 - 1) / 1 = (b - (a + 1)).toNat + 1 := by omega
  have hcount2 : ((b - (a + 1)).toNat + 1 - 1) / 1 = (b - (a + 1)).toNat := by omega
  rw [hcount, hcount2, List.range_succ_eq_map, List.map_cons, List.map_map]
  congr 1
  · push_cast; ring
  · exact List.map_congr_left (fun i _ => by
      simp only [Function.comp_apply]
      push_cast
      ring)

/-- The central bound: any candidate bearing within ±10 whole degrees of the
truncated `acos`-derived bearing of a direction with nonnegative z component
makes an angle of at most 11 degrees with that direction. -/
theorem turn_angle_bound_core (v1 v2 : ℝ) (d a : ℤ)
    (hz : 0 ≤ v2) (hlen : 0 < norm2 (v1, v2))
    (ha : a = f32_as_i32 (Real.arccos ((v1 * 1 + v2 * 0) /
      (norm2 (v1, v2) * 1)) * 180 / Real.pi))
    (hd1 : a - 10 ≤ d) (hd2 : d ≤ a + 10) :
    turn_angle (v1, v2) (NODE_LENGTH * Real.cos (deg_to_rad d),
      NODE_LENGTH * Real.sin (deg_to_rad d)) ≤ 11 * Real.pi / 180 := by
  have hπ : (0 : ℝ) < Real.pi := Real.pi_pos
  have hlen2 : (norm2 (v1, v2)) ^ 2 = v1 ^ 2 + v2 ^ 2 := by
    unfold norm2
    exact Real.sq_sqrt (by positivity)
  have hv1le : |v1| ≤ norm2 (v1, v2) := by
    unfold norm2
    rw [← Real.sqrt_sq_eq_abs]
    exact Real.sqrt_le_sqrt (by nlinarith [sq_nonneg v2])
  have hratio : (v1 * 1 + v2 * 0) / (norm2 (v1, v2) * 1) = v1 / norm2 (v1, v2) := by
    rw [mul_one, mul_zero, add_zero, mul_one]
  have habs1 : |v1 / norm2 (v1, v2)| ≤ 1 := by
    rw [abs_div, abs_of_pos hlen]
    exact div_le_one_of_le hv1le (le_of_lt hlen)
  have hb1 : -1 ≤ v1 / norm2 (v1, v2) := (abs_le.mp habs1).1
  have hb2 : v1 / norm2 (v1, v2) ≤ 1 := (abs_le.mp habs1).2
  have hβ0 : 0 ≤ Real.arccos (v1 / norm2 (v1, v2)) := Real.arccos_nonneg _
  have hβdeg0 : 0 ≤ Real.arccos (v1 / norm2 (v1, v2)) * 180 / Real.pi := by positivity
  have haf : a = ⌊Real.arccos (v1 / norm2 (v1, v2)) * 180 / Real.pi⌋ := by
    rw [ha, hratio]
    unfold f32_as_i32
    rw [if_neg (not_lt.mpr hβdeg0)]
  have hfl1 : (a : ℝ) ≤ Real.arccos (v1 / norm2 (v1, v2)) * 180 / Real.pi := by
    rw [haf]; exact Int.floor_le _
  have hfl2 : Real.arccos (v1 / norm2 (v1, v2)) * 180 / Real.pi < (a : ℝ) + 1 := by
    rw [haf]; exact Int.lt_floor_add_one _
  have hv1eq : v1 = norm2 (v1, v2) * Real.cos (Real.arccos (v1 / norm2 (v1, v2))) := by
    rw [Real.cos_arccos hb1 hb2]
    field_simp
  have hv2eq : v2 = norm2 (v1, v2) * Real.sin (Real.arccos (v1 / norm2 (v1, v2))) := by
    rw [Real.sin_arccos]
    rw [show 1 - (v1 / norm2 (v1, v2)) ^ 2 = (v2 / norm2 (v1, v2)) ^ 2 by
      field_simp
      linarith [hlen2]]
    rw [Real.sqrt_sq (by positivity)]
    field_simp
  have hdot : v1 * (NODE_LENGTH * Real.cos (deg_to_rad d)) +
      v2 * (NODE_LENGTH * Real.sin (deg_to_rad d)) =
      NODE_LENGTH * norm2 (v1, v2) *
        Real.cos (Real.arccos (v1 / norm2 (v1, v2)) - deg_to_rad d) := by
    rw [Real.cos_sub]
    linear_combination (NODE_LENGTH * Real.cos (deg_to_rad d)) * hv1eq +
      (NODE_LENGTH * Real.sin (deg_to_rad d)) * hv2eq
  have hNL : (0 : ℝ) < NODE_LENGTH := by unfold NODE_LENGTH; norm_num
  have hturn : turn_angle (v1, v2) (NODE_LENGTH * Real.cos (deg_to_rad d),
      NODE_LENGTH * Real.sin (deg_to_rad d)) =
      Real.arccos (Real.cos (Real.arccos (v1 / norm2 (v1, v2)) - deg_to_rad d)) := by
    unfold turn_angle
    rw [norm2_cos_sin]
    rw [show (v1, v2).1 * (NODE_LENGTH * Real.cos (deg_to_rad d),
        NODE_LENGTH * Real.sin (deg_to_rad d)).1 +
        (v1, v2).2 * (NODE_LENGTH * Real.cos (deg_to_rad d),
        NODE_LENGTH * Real.sin (deg_to_rad d)).2 =
        v1 * (NODE_LENGTH * Real.cos (deg_to_rad d)) +
        v2 * (NODE_LENGTH * Real.sin (deg_to_rad d)) from rfl]
    rw [hdot]
    congr 1
    field_simp
    ring
  rw [hturn]
  have hdysub : |Real.arccos (v1 / norm2 (v1, v2)) - deg_to_rad d| ≤
      11 * Real.pi / 180 := by
    have hδ : deg_to_rad d = (d : ℝ) * (Real.pi / 180) := rfl
    have hβid : Real.arccos (v1 / norm2 (v1, v2)) =
        (Real.arccos (v1 / norm2 (v1, v2)) * 180 / Real.pi) * (Real.pi / 180) := by
      field_simp
    have hcast1 : (a : ℝ) - 10 ≤ (d : ℝ) := by exact_mod_cast hd1
    have hcast2 : (d : ℝ) ≤ (a : ℝ) + 10 := by exact_mod_cast hd2
    rw [hβid, hδ, ← sub_mul, abs_mul,
      abs_of_pos (show (0 : ℝ) < Real.pi / 180 by positivity)]
    have hdiff : |Real.arccos (v1 / norm2 (v1, v2)) * 180 / Real.pi - (d : ℝ)| ≤ 11 := by
      rw [abs_le]
      constructor <;> nlinarith
    calc |Real.arccos (v1 / norm2 (v1, v2)) * 180 / Real.pi - (d : ℝ)| *
          (Real.pi / 180) ≤ 11 * (Real.pi / 180) := by
          exact mul_le_mul_of_nonneg_right hdiff (by positivity)
      _ = 11 * Real.pi / 180 := by ring
  have habsπ : |Real.arccos (v1 / norm2 (v1, v2)) - deg_to_rad d| ≤ Real.pi := by
    calc |Real.arccos (v1 / norm2 (v1, v2)) - deg_to_rad d| ≤ 11 * Real.pi / 180 :=
          hdysub
      _ ≤ Real.pi := by linarith
  calc Real.arccos (Real.cos (Real.arccos (v1 / norm2 (v1, v2)) - deg_to_rad d)) =
        Real.arccos (Real.cos |Real.arccos (v1 / norm2 (v1, v2)) - deg_to_rad d|) := by
        rw [Real.cos_abs]
    _ = |Real.arccos (v1 / norm2 (v1, v2)) - deg_to_rad d| :=
        Real.arccos_cos (abs_nonneg _) habsπ
    _ ≤ 11 * Real.pi / 180 := hdysub

/-- C2 (amended): when the incoming segment's z component is nonnegative —
so the `acos`-derived bearing preserves the direction — and some candidate
slope beats the `1000.` sentinel, the node appended by `build_route_path`
turns away from the incoming direction by at most `MAX_TURN_ANGLE + 1`
degrees (the extra degree comes from the `as i32` truncation of the
bearing).  The bound does not hold for incoming directions with negative z
component, whose bearing sign the `acos` discards — see the
counterexample. -/
theorem build_route_path_turn_bound
    (noise_fn : ℝ → ℝ → ℝ) (player_position : ℝ × ℝ) (route : Route)
    (last before : Vec3)
    (hlast : route.points.lookup (route.id_counter - 1) = some last)
    (hbefore : route.points.lookup (route.id_counter - 2) = some before)
    (hgate : is_within_render_distance (last.x, last.z)
      ((FAR_GRID_RENDER_DISTANCE : ℤ) : ℝ)
      (((⌊(player_position.1 + (FAR_GRID_CHUNK_SIZE : ℝ) / 2) /
          (FAR_GRID_CHUNK_SIZE : ℝ)⌋ : ℤ) : ℝ),
       ((⌊(player_position.2 + (FAR_GRID_CHUNK_SIZE : ℝ) / 2) /
          (FAR_GRID_CHUNK_SIZE : ℝ)⌋ : ℤ) : ℝ))
      ((FAR_GRID_CHUNK_SIZE : ℤ) : ℝ) = true)
    (hz : 0 ≤ last.z - before.z)
    (hlen : 0 < norm2 (last.x - before.x, last.z - before.z))
    (hcand : ∃ d ∈ stepRange (route_bearing_deg before last - MAX_TURN_ANGLE)
        (route_bearing_deg before last + MAX_TURN_ANGLE + 1) 1,
      route_slope noise_fn last d < 1000) :
    build_route_path noise_fn player_position route =
      .ok { route with
        points := (route.points ++ [(route.id_counter,
          (find_next_path_node noise_fn last (route_bearing_deg before last) MAX_TURN_ANGLE 1))]),
        id_counter := route.id_counter + 1, points_changed := true } ∧
    turn_angle (last.x - before.x, last.z - before.z)
      ((find_next_path_node noise_fn last (route_bearing_deg before last)
          MAX_TURN_ANGLE 1).x - last.x,
       (find_next_path_node noise_fn last (route_bearing_deg before last)
          MAX_TURN_ANGLE 1).z - last.z) ≤
      ((MAX_TURN_ANGLE : ℤ) + 1 : ℝ) * Real.pi / 180 := by
  constructor
  · unfold build_route_path
    simp only [hlast, hbefore, hgate]
    simp
  · obtain ⟨d, hd, heq⟩ := find_next_go_picks_candidate noise_fn last
      (stepRange (route_bearing_deg before last - MAX_TURN_ANGLE)
        (route_bearing_deg before last + MAX_TURN_ANGLE + 1) 1)
      (Vec3.zero, 1000) hcand
    have hr : find_next_path_node noise_fn last (route_bearing_deg before last)
        MAX_TURN_ANGLE 1 = route_result_node noise_fn last d := by
      unfold find_next_path_node
      rw [heq]
    rw [hr]
    have hmem := (stepRange_one_mem _ _ _).mp hd
    unfold MAX_TURN_ANGLE at hmem
    have hvec : ((route_result_node noise_fn last d).x - last.x,
        (route_result_node noise_fn last d).z - last.z) =
        (NODE_LENGTH * Real.cos (deg_to_rad d),
         NODE_LENGTH * Real.sin (deg_to_rad d)) := by
      unfold route_result_node route_this_pos
      simp only [Prod.mk.injEq]
      constructor <;> ring
    rw [hvec]
    have hcore := turn_angle_bound_core (last.x - before.x) (last.z - before.z)
      d (route_bearing_deg before last) hz hlen rfl (by omega) (by omega)
    have hsame : ((MAX_TURN_ANGLE : ℤ) + 1 : ℝ) * Real.pi / 180 =
        11 * Real.pi / 180 := by
      unfold MAX_TURN_ANGLE
      norm_num
    rw [hsame]
    exact hcore

/-- The bearing of the eastward unit segment from `(0,1,0)` to `(90,1,0)`
is 0 degrees. -/
theorem route_bearing_east :
    route_bearing_deg (Vec3.mk 0 1 0) (Vec3.mk 90 1 0) = 0 := by
  unfold route_bearing_deg
  have hn : norm2 ((Vec3.mk 90 1 0).x - (Vec3.mk 0 1 0).x,
      (Vec3.mk 90 1 0).z - (Vec3.mk 0 1 0).z) = 90 := by
    unfold norm2
    rw [show ((Vec3.mk 90 1 0).x - (Vec3.mk 0 1 0).x) ^ 2 +
        ((Vec3.mk 90 1 0).z - (Vec3.mk 0 1 0).z) ^ 2 = (90 : ℝ) ^ 2 by norm_num]
    exact Real.sqrt_sq (by norm_num)
  rw [hn]
  rw [show (((Vec3.mk 90 1 0).x - (Vec3.mk 0 1 0).x) * 1 +
      ((Vec3.mk 90 1 0).z - (Vec3.mk 0 1 0).z) * 0) / ((90 : ℝ) * 1) = 1 by norm_num]
  rw [Real.arccos_one, zero_mul, zero_div]
  unfold f32_as_i32
  rw [if_neg (by norm_num)]
  norm_num

/-- Witness for the amended C2: an eastward incoming segment (z component
zero), flat noise, viewpoint at the origin. -/
theorem build_route_path_turn_bound_witness :
    turn_angle ((Vec3.mk 90 1 0).x - (Vec3.mk 0 1 0).x,
      (Vec3.mk 90 1 0).z - (Vec3.mk 0 1 0).z)
      ((find_next_path_node (fun _ _ => 0) (Vec3.mk 90 1 0)
          (route_bearing_deg (Vec3.mk 0 1 0) (Vec3.mk 90 1 0)) MAX_TURN_ANGLE 1).x -
        (Vec3.mk 90 1 0).x,
       (find_next_path_node (fun _ _ => 0) (Vec3.mk 90 1 0)
          (route_bearing_deg (Vec3.mk 0 1 0) (Vec3.mk 90 1 0)) MAX_TURN_ANGLE 1).z -
        (Vec3.mk 90 1 0).z) ≤ ((MAX_TURN_ANGLE : ℤ) + 1 : ℝ) * Real.pi / 180 :=
  (build_route_path_turn_bound (fun _ _ => 0) ((0 : ℝ), (0 : ℝ))
    (Route.mk 2 [(0, Vec3.mk 0 1 0), (1, Vec3.mk 90 1 0)] false)
    (Vec3.mk 90 1 0) (Vec3.mk 0 1 0) rfl rfl
    (by
      unfold is_within_render_distance
      rw [show ((⌊(((0 : ℝ), (0 : ℝ)).1 + (FAR_GRID_CHUNK_SIZE : ℝ) / 2) /
          (FAR_GRID_CHUNK_SIZE : ℝ)⌋ : ℤ) : ℝ) = 0 by
        unfold FAR_GRID_CHUNK_SIZE; norm_num]
      simp only []
      rw [if_neg (by unfold FAR_GRID_CHUNK_SIZE FAR_GRID_RENDER_DISTANCE; push_cast; norm_num)]
      rw [if_neg (by unfold FAR_GRID_CHUNK_SIZE FAR_GRID_RENDER_DISTANCE; push_cast; norm_num)])
    (by norm_num)
    (by
      unfold norm2
      refine Real.sqrt_pos.mpr ?_
      norm_num)
    ⟨0, (stepRange_one_mem _ _ _).mpr (by rw [route_bearing_east]; unfold MAX_TURN_ANGLE; omega),
      by rw [route_slope_const]; unfold NODE_LENGTH
         rw [show ((0 : ℝ) - (Vec3.mk 90 1 0).y) / 90 = -(1 / 90) by norm_num,
           abs_neg, abs_of_nonneg (by norm_num)]
         norm_num⟩).2

/-- A southward route segment (negative z direction): its `acos`-derived
bearing comes out as +90 degrees, the sign of the z component lost. -/
theorem route_bearing_south :
    route_bearing_deg (Vec3.mk 0 1 90) (Vec3.mk 0 1 0) = 90 := by
  unfold route_bearing_deg
  have hn : norm2 ((Vec3.mk 0 1 0).x - (Vec3.mk 0 1 90).x,
      (Vec3.mk 0 1 0).z - (Vec3.mk 0 1 90).z) = 90 := by
    unfold norm2
    rw [show ((Vec3.mk 0 1 0).x - (Vec3.mk 0 1 90).x) ^ 2 +
        ((Vec3.mk 0 1 0).z - (Vec3.mk 0 1 90).z) ^ 2 = (90 : ℝ) ^ 2 by norm_num]
    exact Real.sqrt_sq (by norm_num)
  rw [hn]
  rw [show (((Vec3.mk 0 1 0).x - (Vec3.mk 0 1 90).x) * 1 +
      ((Vec3.mk 0 1 0).z - (Vec3.mk 0 1 90).z) * 0) / ((90 : ℝ) * 1) = 0 by norm_num]
  rw [Real.arccos_zero]
  rw [show Real.pi / 2 * 180 / Real.pi = 90 by
    field_simp
    ring]
  unfold f32_as_i32
  rw [if_neg (by norm_num)]
  norm_num

/-- With flat noise, the southward bearing scan starting at truncated
bearing 90 keeps its first candidate, bearing 80. -/
theorem find_next_from_south :
    find_next_path_node (fun _ _ => 0) (Vec3.mk 0 1 0) 90 MAX_TURN_ANGLE 1 =
      route_result_node (fun _ _ => 0) (Vec3.mk 0 1 0) 80 := by
  unfold find_next_path_node MAX_TURN_ANGLE
  rw [show (90 : ℤ) - 10 = 80 by norm_num, show (90 : ℤ) + 10 + 1 = 101 by norm_num]
  rw [stepRange_one_cons 80 101 (by norm_num)]
  rw [find_next_go_first_of_const (fun _ _ => 0) (Vec3.mk 0 1 0) 80 _ _
    (by
      rw [route_slope_const]
      unfold NODE_LENGTH
      rw [show ((0 : ℝ) - (Vec3.mk 0 1 0).y) / 90 = -(1 / 90) by norm_num,
        abs_neg, abs_of_nonneg (by norm_num)]
      norm_num)
    (fun d _ => by rw [route_slope_const, route_slope_const])]

/-- The concrete route for the C2 counterexample: two points heading in the
negative z direction. -/
noncomputable def routeC2 : Route :=
  Route.mk 2 [(0, Vec3.mk 0 1 90), (1, Vec3.mk 0 1 0)] false

/-- C2 counterexample: extending a route whose incoming direction points in
negative z (bearing -90 degrees), `build_route_path` scans around the
sign-stripped bearing +90 and appends a point turning more than 90 degrees
(in particular more than `MAX_TURN_ANGLE = 10` degrees, even with
tolerance) away from the incoming direction. -/
theorem route_turn_exceeds_max :
    build_route_path (fun _ _ => 0) ((0 : ℝ), (0 : ℝ)) routeC2 =
      .ok (Route.mk 3 [(0, Vec3.mk 0 1 90), (1, Vec3.mk 0 1 0),
        (2, route_result_node (fun _ _ => 0) (Vec3.mk 0 1 0) 80)] true) ∧
    Real.pi / 2 ≤ turn_angle ((Vec3.mk 0 1 0).x - (Vec3.mk 0 1 90).x,
      (Vec3.mk 0 1 0).z - (Vec3.mk 0 1 90).z)
      ((route_result_node (fun _ _ => 0) (Vec3.mk 0 1 0) 80).x - (Vec3.mk 0 1 0).x,
       (route_result_node (fun _ _ => 0) (Vec3.mk 0 1 0) 80).z - (Vec3.mk 0 1 0).z) ∧
    (MAX_TURN_ANGLE : ℝ) * Real.pi / 180 < turn_angle
      ((Vec3.mk 0 1 0).x - (Vec3.mk 0 1 90).x,
       (Vec3.mk 0 1 0).z - (Vec3.mk 0 1 90).z)
      ((route_result_node (fun _ _ => 0) (Vec3.mk 0 1 0) 80).x - (Vec3.mk 0 1 0).x,
       (route_result_node (fun _ _ => 0) (Vec3.mk 0 1 0) 80).z - (Vec3.mk 0 1 0).z) := by
  have hπ : (0 : ℝ) < Real.pi := Real.pi_pos
  have hvec : ((route_result_node (fun _ _ => 0) (Vec3.mk 0 1 0) 80).x -
      (Vec3.mk 0 1 0).x,
      (route_result_node (fun _ _ => 0) (Vec3.mk 0 1 0) 80).z -
      (Vec3.mk 0 1 0).z) =
      (NODE_LENGTH * Real.cos (deg_to_rad 80),
       NODE_LENGTH * Real.sin (deg_to_rad 80)) := by
    unfold route_result_node route_this_pos
    simp only [Prod.mk.injEq]
    constructor <;> ring
  have hsin : 0 < Real.sin (deg_to_rad 80) := by
    apply Real.sin_pos_of_pos_of_lt_pi
    · unfold deg_to_rad
      positivity
    · unfold deg_to_rad
      rw [show ((80 : ℤ) : ℝ) * (Real.pi / 180) = Real.pi * (80 / 180) by ring]
      nlinarith
  have hturn : turn_angle ((Vec3.mk 0 1 0).x - (Vec3.mk 0 1 90).x,
      (Vec3.mk 0 1 0).z - (Vec3.mk 0 1 90).z)
      ((route_result_node (fun _ _ => 0) (Vec3.mk 0 1 0) 80).x - (Vec3.mk 0 1 0).x,
       (route_result_node (fun _ _ => 0) (Vec3.mk 0 1 0) 80).z - (Vec3.mk 0 1 0).z) =
      Real.arccos (-Real.sin (deg_to_rad 80)) := by
    rw [hvec]
    unfold turn_angle
    rw [norm2_cos_sin]
    have hn : norm2 ((Vec3.mk 0 1 0).x - (Vec3.mk 0 1 90).x,
        (Vec3.mk 0 1 0).z - (Vec3.mk 0 1 90).z) = 90 := by
      unfold norm2
      rw [show ((Vec3.mk 0 1 0).x - (Vec3.mk 0 1 90).x) ^ 2 +
          ((Vec3.mk 0 1 0).z - (Vec3.mk 0 1 90).z) ^ 2 = (90 : ℝ) ^ 2 by norm_num]
      exact Real.sqrt_sq (by norm_num)
    rw [hn]
    congr 1
    unfold NODE_LENGTH
    rw [show ((Vec3.mk 0 1 0).x - (Vec3.mk 0 1 90).x) *
        (90 * Real.cos (deg_to_rad 80)) +
        ((Vec3.mk 0 1 0).z - (Vec3.mk 0 1 90).z) * (90 * Real.sin (deg_to_rad 80)) =
        -8100 * Real.sin (deg_to_rad 80) by norm_num; ring]
    rw [show (90 : ℝ) * 90 = 8100 by norm_num]
    rw [show (-8100 : ℝ) * Real.sin (deg_to_rad 80) / 8100 =
      -Real.sin (deg_to_rad 80) by ring]
  have hhalf : Real.pi / 2 ≤ Real.arccos (-Real.sin (deg_to_rad 80)) := by
    rw [Real.arccos_eq_pi_div_two_sub_arcsin]
    have : Real.arcsin (-Real.sin (deg_to_rad 80)) ≤ 0 :=
      Real.arcsin_nonpos.mpr (by linarith)
    linarith
  refine ⟨?_, ?_, ?_⟩
  · have hlast2 : routeC2.points.lookup (routeC2.id_counter - 1) =
        some (Vec3.mk 0 1 0) := rfl
    have hbefore2 : routeC2.points.lookup (routeC2.id_counter - 2) =
        some (Vec3.mk 0 1 90) := rfl
    have hgate2 : is_within_render_distance
        ((Vec3.mk 0 1 0).x, (Vec3.mk 0 1 0).z)
        ((FAR_GRID_RENDER_DISTANCE : ℤ) : ℝ)
        (((⌊((0 : ℝ) + (FAR_GRID_CHUNK_SIZE : ℝ) / 2) /
            (FAR_GRID_CHUNK_SIZE : ℝ)⌋ : ℤ) : ℝ),
         ((⌊((0 : ℝ) + (FAR_GRID_CHUNK_SIZE : ℝ) / 2) /
            (FAR_GRID_CHUNK_SIZE : ℝ)⌋ : ℤ) : ℝ))
        ((FAR_GRID_CHUNK_SIZE : ℤ) : ℝ) = true := by
      unfold is_within_render_distance
      rw [show ((⌊((0 : ℝ) + (FAR_GRID_CHUNK_SIZE : ℝ) / 2) /
          (FAR_GRID_CHUNK_SIZE : ℝ)⌋ : ℤ) : ℝ) = 0 by
        unfold FAR_GRID_CHUNK_SIZE; norm_num]
      simp only []
      rw [if_neg (by unfold FAR_GRID_CHUNK_SIZE FAR_GRID_RENDER_DISTANCE; push_cast; norm_num)]
      rw [if_neg (by unfold FAR_GRID_CHUNK_SIZE FAR_GRID_RENDER_DISTANCE; push_cast; norm_num)]
    unfold build_route_path
    simp only [hlast2, hbefore2, hgate2]
    simp [route_bearing_south, find_next_from_south, routeC2]
  · rw [hturn]
    exact hhalf
  · rw [hturn]
    have : (MAX_TURN_ANGLE : ℝ) * Real.pi / 180 < Real.pi / 2 := by
      unfold MAX_TURN_ANGLE
      push_cast
      nlinarith
    linarith
